import Mathlib

/-!
# libusb0 win32 backend (`src/os/libusb0_win32.c`)

A shallow embedding of the backend's operations.  Every call that leaves the
translation unit (Win32 API, portable-layer helpers) is recorded in a log of
`Event`s, and what such a call reports back is read from an explicit
environment argument, so the functions below are pure and executable.
-/

namespace Libusb0

/-! ## Platform types and constants (`windows.h`) -/

/-- A Win32 `DWORD`: an unsigned 32-bit quantity. -/
abbrev DWORD := Nat

/-- A Win32 `HANDLE`, by its pointer value. -/
abbrev HANDLE := Int

/-- The null handle. -/
def NULL : HANDLE := 0

/-- The value `((HANDLE)(LONG_PTR)-1)`. -/
def INVALID_HANDLE_VALUE : HANDLE := -1

def ERROR_SUCCESS : DWORD := 0
def ERROR_BUSY : DWORD := 170
def ERROR_OPERATION_ABORTED : DWORD := 995
def ERROR_IO_PENDING : DWORD := 997

/-- Conversion of a `DWORD` to a C `int` (32 bits, two's complement), as done by
`return dwTransferred;` in a function returning `int` (line 49) and by the assignment
`tran->actual_length = dwTransferred;` to an `int` field (line 176). -/
def DWORD_to_int (d : DWORD) : Int :=
  if d % 2 ^ 32 < 2 ^ 31 then ((d % 2 ^ 32 : Nat) : Int) else ((d % 2 ^ 32 : Nat) : Int) - 2 ^ 32

/-! ## Constants of the repository's own headers

`libusby.h` and `libusb0_win32_intf.h` are not part of the source file; the
values they give to the names used by the code are taken as a parameter. -/

/-- The header constants the code refers to. -/
structure Consts where
  LIBUSBY_SUCCESS : Int
  LIBUSBY_ERROR_IO : Int
  LIBUSBY_ERROR_INVALID_PARAM : Int
  LIBUSBY_ERROR_BUSY : Int
  LIBUSBY_ERROR_NO_MEM : Int
  LIBUSBY_TRANSFER_TYPE_BULK : Nat
  LIBUSBY_TRANSFER_TYPE_INTERRUPT : Nat
  LIBUSB_MAX_NUMBER_OF_DEVICES : Nat
  LIBUSB_IOCTL_GET_DESCRIPTOR : DWORD
  LIBUSB_IOCTL_CLAIM_INTERFACE : DWORD
  LIBUSB_IOCTL_RELEASE_INTERFACE : DWORD
  LIBUSB_IOCTL_ABORT_ENDPOINT : DWORD
  LIBUSB_IOCTL_INTERRUPT_OR_BULK_READ : DWORD
  LIBUSB_IOCTL_INTERRUPT_OR_BULK_WRITE : DWORD
  sizeof_libusby_device_descriptor : Nat
  deriving Repr

/-- The library error codes are negative and `LIBUSBY_SUCCESS` is not
(an entry point returns one of the error codes or a non-negative success value). -/
def Consts.ErrorsNegative (k : Consts) : Prop :=
  0 ≤ k.LIBUSBY_SUCCESS ∧ k.LIBUSBY_ERROR_IO < 0 ∧ k.LIBUSBY_ERROR_INVALID_PARAM < 0 ∧
    k.LIBUSBY_ERROR_BUSY < 0 ∧ k.LIBUSBY_ERROR_NO_MEM < 0

instance (k : Consts) : Decidable k.ErrorsNegative := by
  unfold Consts.ErrorsNegative; infer_instance

/-- One concrete choice of the header constants, used by the concrete instances below:
libusb-style error numbering, 256 device slots, an 18-byte device descriptor, and six
different numbers for the control codes. -/
def sampleConsts : Consts where
  LIBUSBY_SUCCESS := 0
  LIBUSBY_ERROR_IO := -1
  LIBUSBY_ERROR_INVALID_PARAM := -2
  LIBUSBY_ERROR_BUSY := -6
  LIBUSBY_ERROR_NO_MEM := -11
  LIBUSBY_TRANSFER_TYPE_BULK := 2
  LIBUSBY_TRANSFER_TYPE_INTERRUPT := 3
  LIBUSB_MAX_NUMBER_OF_DEVICES := 256
  LIBUSB_IOCTL_GET_DESCRIPTOR := 10
  LIBUSB_IOCTL_CLAIM_INTERFACE := 22
  LIBUSB_IOCTL_RELEASE_INTERFACE := 23
  LIBUSB_IOCTL_ABORT_ENDPOINT := 16
  LIBUSB_IOCTL_INTERRUPT_OR_BULK_READ := 12
  LIBUSB_IOCTL_INTERRUPT_OR_BULK_WRITE := 11
  sizeof_libusby_device_descriptor := 18

/-! ## Objects and the log of external calls -/

/-- Identity of a `libusby_device` object: either the object at position `j` of
`ctx->devices.list`, or the object `usbyi_alloc_device` returned while slot `i` was
being processed (an allocation never returns a live object, and each slot allocates
at most once per scan). -/
inductive DevPtr where
  | known (j : Nat)
  | fresh (i : Nat)
  deriving DecidableEq, Repr

/-- Identity of an `OVERLAPPED` structure: the local one of a control-channel call
(told apart by its event handle) or the one inside a transfer's `os_priv`. -/
inductive OVERLAPPED where
  | onStack (hEvent : HANDLE)
  | ofTransfer (t : Nat)
  deriving DecidableEq, Repr

/-- The request header `libusb0_win32_request`, by the fields the code assigns
(all others stay zero from `= {0}`). -/
structure libusb0_win32_request where
  descriptor_type : Nat := 0
  intf_interface_number : Int := 0
  endpoint_endpoint : Nat := 0
  deriving DecidableEq, Repr

/-- Calls that leave the translation unit, with the arguments that identify them. -/
inductive Event where
  | CreateEvent (ret : HANDLE)
  | DeviceIoControl (hFile : HANDLE) (dwControlCode : DWORD) (req : libusb0_win32_request)
      (out_len : Int) (o : OVERLAPPED)
  | GetOverlappedResult (hFile : HANDLE) (o : OVERLAPPED)
  | CloseHandle (h : HANDLE)
  | CreateFileW (i : Nat) (ret : HANDLE)
  | usbyi_append_device_list (dev : DevPtr) (ret : Int)
  | libusby_ref_device (dev : DevPtr)
  | usbyi_alloc_device (ret : Option DevPtr)
  | usbyi_sanitize_device_desc (dev : DevPtr) (ret : Int)
  | libusby_unref_device (dev : DevPtr)
  | libusby_free_device_list (list : List DevPtr) (unref_devices : Int)
  | CancelIoEx (hFile : HANDLE) (o : OVERLAPPED)
  | ResetEvent (t : Nat)
  | SetEvent (t : Nat)
  | usbyi_win32_add_transfer (t : Nat)
  | usbyi_win32_remove_transfer (t : Nat)
  | callback (fn : Nat) (t : Nat)
  deriving DecidableEq, Repr

/-- What one overlapped Win32 call reports: its `BOOL` result, the value it leaves
in `dwTransferred`, and what `GetLastError()` returns after it. -/
structure IoOutcome where
  res : Bool
  dwTransferred : DWORD
  lastError : DWORD
  deriving DecidableEq, Repr

/-- What the OS does during one control-channel call. -/
structure SyncEnv where
  hEvent : HANDLE
  ioctl : IoOutcome
  wait : IoOutcome
  deriving DecidableEq, Repr

/-! ## `sync_device_io_control` -/

/-- The value of `dwError` and `dwTransferred` after the request (lines 32-42). -/
def sync_request_result (env : SyncEnv) : DWORD × DWORD :=
  if env.ioctl.res = false then
    if env.ioctl.lastError = ERROR_IO_PENDING then
      if env.wait.res = false then (env.wait.lastError, env.wait.dwTransferred)
      else (ERROR_SUCCESS, env.wait.dwTransferred)
    else (env.ioctl.lastError, env.ioctl.dwTransferred)
  else (ERROR_SUCCESS, env.ioctl.dwTransferred)

/-- The OS calls made for the request itself (lines 32-42). -/
def sync_request_log (env : SyncEnv) (hFile : HANDLE) (dwControlCode : DWORD)
    (req : libusb0_win32_request) (out_len : Int) : List Event :=
  Event.DeviceIoControl hFile dwControlCode req out_len (OVERLAPPED.onStack env.hEvent) ::
    (if env.ioctl.res = false ∧ env.ioctl.lastError = ERROR_IO_PENDING then
      [Event.GetOverlappedResult hFile (OVERLAPPED.onStack env.hEvent)]
    else [])

/-- The function `sync_device_io_control`: the returned `int` and the external calls made. -/
def sync_device_io_control (k : Consts) (env : SyncEnv) (hFile : HANDLE) (dwControlCode : DWORD)
    (req : libusb0_win32_request) (out_len : Int) : Int × List Event :=
  if env.hEvent = NULL then
    (k.LIBUSBY_ERROR_NO_MEM, [Event.CreateEvent env.hEvent])
  else
    let r := sync_request_result env
    let log := Event.CreateEvent env.hEvent ::
      (sync_request_log env hFile dwControlCode req out_len ++ [Event.CloseHandle env.hEvent])
    if r.1 = ERROR_SUCCESS then (DWORD_to_int r.2, log)
    else if r.1 = ERROR_BUSY then (k.LIBUSBY_ERROR_BUSY, log)
    else (k.LIBUSBY_ERROR_IO, log)

/-- An event is a driver request when it is a `DeviceIoControl` call. -/
def Event.isDeviceIoControl : Event → Bool
  | Event.DeviceIoControl _ _ _ _ _ => true
  | _ => false

/-! ## `libusb0_get_device_descriptor` -/

/-- The function `libusb0_get_device_descriptor`.  The comparison
`r != sizeof(libusby_device_descriptor)` is between an `int` and a small `size_t`
constant, so it is the comparison of the two numbers. -/
def libusb0_get_device_descriptor (k : Consts) (env : SyncEnv) (hFile : HANDLE) :
    Int × List Event :=
  let r := sync_device_io_control k env hFile k.LIBUSB_IOCTL_GET_DESCRIPTOR
    { descriptor_type := 1 } (k.sizeof_libusby_device_descriptor : Int)
  if r.1 ≠ (k.sizeof_libusby_device_descriptor : Int) then (k.LIBUSBY_ERROR_IO, r.2)
  else (r.1, r.2)

/-! ## `libusb0_claim_interface` and `libusb0_release_interface` -/

/-- The function `libusb0_claim_interface` on a device whose driver channel is `hFile`. -/
def libusb0_claim_interface (k : Consts) (env : SyncEnv) (hFile : HANDLE)
    (interface_number : Int) : Int × List Event :=
  sync_device_io_control k env hFile k.LIBUSB_IOCTL_CLAIM_INTERFACE
    { intf_interface_number := interface_number } 0

/-- The function `libusb0_release_interface` on a device whose driver channel is `hFile`. -/
def libusb0_release_interface (k : Consts) (env : SyncEnv) (hFile : HANDLE)
    (interface_number : Int) : Int × List Event :=
  sync_device_io_control k env hFile k.LIBUSB_IOCTL_RELEASE_INTERFACE
    { intf_interface_number := interface_number } 0

/-! ## Devices and `libusb0_get_device_list` -/

/-- The backend's per-device data `libusb0_device_private`. -/
structure libusb0_device_private where
  devno : Int
  hFile : HANDLE
  deriving DecidableEq, Repr

/-- A `libusby_device`, by the parts the backend touches. -/
structure libusby_device where
  ref_count : Int
  devpriv : libusb0_device_private
  deriving DecidableEq, Repr

/-- What the OS and the portable layer report while one slot is processed. -/
structure SlotEnv where
  /-- result of `CreateFileW` -/
  hFile : HANDLE
  /-- whether `usbyi_alloc_device` returns an object (not `NULL`) -/
  alloc_ok : Bool
  /-- the OS during the descriptor request -/
  io : SyncEnv
  /-- return value of `usbyi_sanitize_device_desc` -/
  sanitize : Int
  /-- return value of `usbyi_append_device_list` -/
  append : Int
  deriving DecidableEq, Repr

/-- The memory a scan works on: the device objects, the list under construction
(`devlist`, whose `count` is the length) and the external calls made so far. -/
structure ScanState where
  heap : DevPtr → libusby_device
  devlist : List DevPtr
  log : List Event

/-- Record external calls. -/
def ScanState.emit (s : ScanState) (es : List Event) : ScanState :=
  { s with log := s.log ++ es }

/-- Slot index stored in a device object. -/
def ScanState.devno (s : ScanState) (p : DevPtr) : Int := (s.heap p).devpriv.devno

/-- Modelled from the spec: `usbyi_alloc_device` (portable layer, not in the source file)
"allocate[s] a new Device object"; the new object holds one reference, and its private
data is not yet filled in. -/
def usbyi_alloc_device (newdev : DevPtr) (s : ScanState) : ScanState :=
  { s with
    heap := Function.update s.heap newdev { ref_count := 1, devpriv := { devno := 0, hFile := NULL } }
    log := s.log ++ [Event.usbyi_alloc_device (some newdev)] }

/-- Modelled from the spec: `libusby_ref_device` (portable layer) "increment[s] its
reference count". -/
def libusby_ref_device (dev : DevPtr) (s : ScanState) : ScanState :=
  { s with
    heap := Function.update s.heap dev { s.heap dev with ref_count := (s.heap dev).ref_count + 1 }
    log := s.log ++ [Event.libusby_ref_device dev] }

/-- Modelled from the spec: `libusby_unref_device` (portable layer) releases one
reference of the object; what happens at zero is outside the backend. -/
def libusby_unref_device (dev : DevPtr) (s : ScanState) : ScanState :=
  { s with
    heap := Function.update s.heap dev { s.heap dev with ref_count := (s.heap dev).ref_count - 1 }
    log := s.log ++ [Event.libusby_unref_device dev] }

/-- Modelled from the spec: a successful `usbyi_append_device_list` (portable layer)
adds the object at the end of the list; the call itself is logged by the caller. -/
def usbyi_append_device_list (dev : DevPtr) (s : ScanState) : ScanState :=
  { s with devlist := s.devlist ++ [dev] }

/-- Release one reference of every entry of a list, first entry first. -/
def unref_all : List DevPtr → (DevPtr → libusby_device) → (DevPtr → libusby_device)
  | [], heap => heap
  | p :: ps, heap =>
    unref_all ps (Function.update heap p { heap p with ref_count := (heap p).ref_count - 1 })

/-- Modelled from the spec: `libusby_free_device_list(list, 1)` (portable layer), "the
list's own bulk-release primitive", releases the Device reference of every entry. -/
def libusby_free_device_list (s : ScanState) : ScanState :=
  { s with
    heap := unref_all s.devlist s.heap
    log := s.log ++ [Event.libusby_free_device_list s.devlist 1] }

/-- The search of lines 105-116: the first entry of `ctx->devices` whose `devno` is `i`. -/
def find_known (heap : DevPtr → libusby_device) (i : Nat) : List DevPtr → Option DevPtr
  | [] => none
  | p :: ps => if (heap p).devpriv.devno = (i : Int) then some p else find_known heap i ps

/-- How one iteration of the slot loop ends: the loop goes on, or `goto error`. -/
inductive Step where
  | next (s : ScanState)
  | error (s : ScanState)

/-- Lines 130-131: `libusby_unref_device(newdev); CloseHandle(hFile);`. -/
def discard_candidate (newdev : DevPtr) (hFile : HANDLE) (s : ScanState) : ScanState :=
  (libusby_unref_device newdev s).emit [Event.CloseHandle hFile]

/-- Lines 135-137: store the slot index and the handle in the new device. -/
def set_devpriv (newdev : DevPtr) (i : Nat) (hFile : HANDLE) (s : ScanState) : ScanState :=
  { s with
    heap := Function.update s.heap newdev
      { s.heap newdev with devpriv := { devno := (i : Int), hFile := hFile } } }

/-- Lines 118-139, after a successful allocation: the new-device branch. -/
def scan_new_device (k : Consts) (e : SlotEnv) (i : Nat) (s : ScanState) : ScanState :=
  let newdev := DevPtr.fresh i
  let d := libusb0_get_device_descriptor k e.io e.hFile
  let s1 := s.emit d.2
  if d.1 < 0 then discard_candidate newdev e.hFile s1
  else
    let s2 := s1.emit [Event.usbyi_sanitize_device_desc newdev e.sanitize]
    if e.sanitize < 0 then discard_candidate newdev e.hFile s2
    else
      let s3 := s2.emit [Event.usbyi_append_device_list newdev e.append]
      if e.append < 0 then discard_candidate newdev e.hFile s3
      else set_devpriv newdev i e.hFile (usbyi_append_device_list newdev s3)

/-- The body of the slot loop (lines 95-139) for slot `i`. -/
def scan_slot (k : Consts) (ctx_devices : List DevPtr) (e : SlotEnv) (i : Nat) (s : ScanState) :
    Step :=
  let s0 := s.emit [Event.CreateFileW i e.hFile]
  if e.hFile = INVALID_HANDLE_VALUE then Step.next s0
  else
    match find_known s.heap i ctx_devices with
    | some p =>
      let s1 := s0.emit [Event.usbyi_append_device_list p e.append]
      if e.append < 0 then Step.error s1
      else Step.next (libusby_ref_device p (usbyi_append_device_list p s1))
    | none =>
      if e.alloc_ok = false then Step.next (s0.emit [Event.usbyi_alloc_device none])
      else Step.next (scan_new_device k e i (usbyi_alloc_device (DevPtr.fresh i) s0))

/-- What a scan hands back: the returned `int`, the list stored through `list`
(nothing is stored on the error path), and the memory and log at return. -/
structure ScanResult where
  ret : Int
  list : Option (List DevPtr)
  final : ScanState

/-- Lines 145-148: the `error:` exit. `devlist.list` is non-null once an append succeeded. -/
def scan_error (k : Consts) (s : ScanState) : ScanResult :=
  { ret := k.LIBUSBY_ERROR_NO_MEM
    list := none
    final := if s.devlist ≠ [] then libusby_free_device_list s else s }

/-- The slot loop `for (i = ...; i < LIBUSB_MAX_NUMBER_OF_DEVICES; ++i)` at index `i` with
`n` iterations left, followed by the normal exit (lines 142-143). -/
def scan_loop (k : Consts) (ctx_devices : List DevPtr) (env : Nat → SlotEnv) :
    Nat → Nat → ScanState → ScanResult
  | _, 0, s => { ret := (s.devlist.length : Int), list := some s.devlist, final := s }
  | i, n + 1, s =>
    match scan_slot k ctx_devices (env i) i s with
    | Step.next s1 => scan_loop k ctx_devices env (i + 1) n s1
    | Step.error s1 => scan_error k s1

/-- The object a pointer refers to when the scan starts. -/
def initial_heap (known : List libusby_device) : DevPtr → libusby_device
  | DevPtr.known j => known.getD j { ref_count := 0, devpriv := { devno := 0, hFile := NULL } }
  | DevPtr.fresh _ => { ref_count := 0, devpriv := { devno := 0, hFile := NULL } }

/-- The array `ctx->devices.list` for a context that knows the devices `known`. -/
def ctx_devices (known : List libusby_device) : List DevPtr :=
  (List.range known.length).map DevPtr.known

/-- State at entry: `devlist = {0}`. -/
def initial_state (known : List libusby_device) : ScanState :=
  { heap := initial_heap known, devlist := [], log := [] }

/-- The function `libusb0_get_device_list` for a context whose device set holds the
objects `known`: `i` runs from 1 while `i < LIBUSB_MAX_NUMBER_OF_DEVICES`. -/
def libusb0_get_device_list (k : Consts) (known : List libusby_device) (env : Nat → SlotEnv) :
    ScanResult :=
  scan_loop k (ctx_devices known) env 1 (k.LIBUSB_MAX_NUMBER_OF_DEVICES - 1) (initial_state known)

/-! ## Transfers -/

/-- The transfer status values the backend assigns (`libusby_transfer_status`). -/
inductive libusby_transfer_status where
  | LIBUSBY_TRANSFER_COMPLETED
  | LIBUSBY_TRANSFER_ERROR
  | LIBUSBY_TRANSFER_CANCELLED
  deriving DecidableEq, Repr

/-- A `libusby_device_handle`, by what the backend reads through it:
`usbyi_dev_to_devpriv(dev_handle->dev)->hFile`. -/
structure libusby_device_handle where
  hFile : HANDLE
  deriving DecidableEq, Repr

/-- A `libusby_transfer`, by the fields the backend reads or writes.  `dev_handle` and
`callback` are pointers that may be null; `length` and `actual_length` are C `int`s. -/
structure libusby_transfer where
  dev_handle : Option libusby_device_handle
  endpoint : Nat
  type : Nat
  length : Int
  status : libusby_transfer_status
  actual_length : Int
  callback : Option Nat
  deriving DecidableEq, Repr

/-- The backend's context data `libusb0_ctx`; `cancel_io_ex` tells whether the pointer
resolved at init is non-null. -/
structure libusb0_ctx where
  hKernel32 : HANDLE
  cancel_io_ex : Bool
  deriving DecidableEq, Repr

/-- The memory transfer operations work on: the context, the transfer objects, the
context's pending set and the external calls made so far. -/
structure World where
  ctxpriv : libusb0_ctx
  transfers : Nat → libusby_transfer
  pending : List Nat
  log : List Event

/-- Record external calls. -/
def World.emit (w : World) (es : List Event) : World :=
  { w with log := w.log ++ es }

/-- Modelled from the spec: `usbyi_win32_add_transfer` (portable layer) registers the
in-flight record in the context's pending set. -/
def usbyi_win32_add_transfer (t : Nat) (w : World) : World :=
  { w with pending := w.pending ++ [t], log := w.log ++ [Event.usbyi_win32_add_transfer t] }

/-- Modelled from the spec: `usbyi_win32_remove_transfer` (portable layer) removes the
in-flight record, keyed by its identity, from the context's pending set. -/
def usbyi_win32_remove_transfer (t : Nat) (w : World) : World :=
  { w with
    pending := w.pending.filter (fun x => decide (x ≠ t))
    log := w.log ++ [Event.usbyi_win32_remove_transfer t] }

/-- The function `libusb0_update_finished_transfer`.  Line 176 stores the `DWORD` byte count
in the `int` field `actual_length`, which converts it. -/
def libusb0_update_finished_transfer (tran : libusby_transfer) (dwError : DWORD)
    (dwTransferred : DWORD) : libusby_transfer :=
  if dwError = ERROR_SUCCESS then
    { tran with actual_length := DWORD_to_int dwTransferred
                status := libusby_transfer_status.LIBUSBY_TRANSFER_COMPLETED }
  else if dwError = ERROR_OPERATION_ABORTED then
    { tran with actual_length := 0
                status := libusby_transfer_status.LIBUSBY_TRANSFER_CANCELLED }
  else
    { tran with actual_length := 0
                status := libusby_transfer_status.LIBUSBY_TRANSFER_ERROR }

/-- The function `libusb0_submit_transfer` on transfer `t`; `os` is what `DeviceIoControl`
reports.  The function reads through `tran->dev_handle` unconditionally, so there is no
result when that pointer is null. -/
def libusb0_submit_transfer (k : Consts) (os : IoOutcome) (t : Nat) (w : World) :
    Option (Int × World) :=
  match (w.transfers t).dev_handle with
  | none => none
  | some h =>
    let tran := w.transfers t
    if tran.type = k.LIBUSBY_TRANSFER_TYPE_BULK ∨ tran.type = k.LIBUSBY_TRANSFER_TYPE_INTERRUPT then
      let req : libusb0_win32_request := { endpoint_endpoint := tran.endpoint }
      let dwControlCode :=
        if tran.endpoint &&& 0x80 ≠ 0 then k.LIBUSB_IOCTL_INTERRUPT_OR_BULK_READ
        else k.LIBUSB_IOCTL_INTERRUPT_OR_BULK_WRITE
      let w1 := w.emit
        [Event.DeviceIoControl h.hFile dwControlCode req tran.length (OVERLAPPED.ofTransfer t)]
      if os.res = false ∧ os.lastError ≠ ERROR_IO_PENDING then
        some (k.LIBUSBY_ERROR_IO, w1)
      else
        some (k.LIBUSBY_SUCCESS, usbyi_win32_add_transfer t (w1.emit [Event.ResetEvent t]))
    else
      some (k.LIBUSBY_ERROR_INVALID_PARAM, w)

/-- The function `libusb0_cancel_transfer` on transfer `t`; `env` is what the OS does if the
abort request is issued (the `BOOL` of `CancelIoEx` and the channel's result are dropped). -/
def libusb0_cancel_transfer (k : Consts) (env : SyncEnv) (t : Nat) (w : World) : Int × World :=
  match (w.transfers t).dev_handle with
  | some h =>
    if w.ctxpriv.cancel_io_ex = true then
      (k.LIBUSBY_SUCCESS, w.emit [Event.CancelIoEx h.hFile (OVERLAPPED.ofTransfer t)])
    else
      let r := sync_device_io_control k env h.hFile k.LIBUSB_IOCTL_ABORT_ENDPOINT
        { endpoint_endpoint := (w.transfers t).endpoint } 0
      (k.LIBUSBY_SUCCESS, w.emit r.2)
  | none => (k.LIBUSBY_SUCCESS, w)

/-- Lines 259-262 of `libusb0_reap_transfer`: wait for the result, classify it, remove the
record from the pending set. -/
def reap_before_callback (os : IoOutcome) (t : Nat) (h : libusby_device_handle) (w : World) :
    World :=
  let w1 := w.emit [Event.GetOverlappedResult h.hFile (OVERLAPPED.ofTransfer t)]
  let tran := libusb0_update_finished_transfer (w1.transfers t)
    (if os.res = true then ERROR_SUCCESS else os.lastError) os.dwTransferred
  usbyi_win32_remove_transfer t { w1 with transfers := Function.update w1.transfers t tran }

/-- Lines 263-264: `if (tran->callback) tran->callback(tran);`.  The callback is caller
code: `user fn t` is what the function behind pointer `fn` does to the memory. -/
def invoke_callback (user : Nat → Nat → World → World) (t : Nat) (w : World) : World :=
  match (w.transfers t).callback with
  | some fn => user fn t (w.emit [Event.callback fn t])
  | none => w

/-- The function `libusb0_reap_transfer` on transfer `t`; `os` is what `GetOverlappedResult`
reports.  It reads through `tran->dev_handle` unconditionally, so there is no result when
that pointer is null. -/
def libusb0_reap_transfer (user : Nat → Nat → World → World) (os : IoOutcome) (t : Nat)
    (w : World) : Option World :=
  match (w.transfers t).dev_handle with
  | none => none
  | some h => some ((invoke_callback user t (reap_before_callback os t h w)).emit [Event.SetEvent t])

/-- One backend call of a caller's schedule. -/
inductive Op where
  | submit (t : Nat) (os : IoOutcome)
  | reap (t : Nat) (os : IoOutcome)
  deriving DecidableEq, Repr

/-- Run a schedule of submissions and reaps, left to right. -/
def run (k : Consts) (user : Nat → Nat → World → World) : List Op → World → Option World
  | [], w => some w
  | Op.submit t os :: ops, w =>
    match libusb0_submit_transfer k os t w with
    | some r => run k user ops r.2
    | none => none
  | Op.reap t os :: ops, w =>
    match libusb0_reap_transfer user os t w with
    | some w1 => run k user ops w1
    | none => none

/-! ## Schedules of submissions and reaps -/

/-- Whether `libusb0_submit_transfer` accepts the transfer given what the driver reports:
the handle pointer is not null, the type is bulk or interrupt, and the request completed
inline or is pending. -/
def accepted (k : Consts) (os : IoOutcome) (tran : libusby_transfer) : Bool :=
  decide (tran.dev_handle ≠ none ∧
    (tran.type = k.LIBUSBY_TRANSFER_TYPE_BULK ∨ tran.type = k.LIBUSBY_TRANSFER_TYPE_INTERRUPT) ∧
    (os.res = true ∨ os.lastError = ERROR_IO_PENDING))

/-- A caller's schedule, read from the memory `w` it starts in, with `q` the transfers it has
submitted and not yet reaped: every submission is of a transfer that is not in flight and
is accepted, every reap is of a transfer in flight, and nothing is in flight at the end. -/
def valid_schedule (k : Consts) (w : World) : List Op → List Nat → Bool
  | [], q => decide (q = [])
  | Op.submit t os :: ops, q =>
    decide (t ∉ q) && decide (t ∉ w.pending) && accepted k os (w.transfers t) &&
      valid_schedule k w ops (q ++ [t])
  | Op.reap t _ :: ops, q =>
    decide (t ∈ q) && valid_schedule k w ops (q.filter (fun x => decide (x ≠ t)))

/-! ## Views of the log -/

/-- The slot indices handed to `CreateFileW`, in call order. -/
def probes : List Event → List Nat
  | [] => []
  | Event.CreateFileW i _ :: evs => i :: probes evs
  | _ :: evs => probes evs

/-- The objects whose append to the result list succeeded, in call order. -/
def appended : List Event → List DevPtr
  | [] => []
  | Event.usbyi_append_device_list dev ret :: evs =>
    if ret < 0 then appended evs else dev :: appended evs
  | _ :: evs => appended evs

/-- An event is a call of the bulk-release primitive `libusby_free_device_list`. -/
def Event.isFreeList : Event → Bool
  | Event.libusby_free_device_list _ _ => true
  | _ => false

/-! ## One iteration of the slot loop, by the way it goes

The definitions of this section restate `scan_slot` case by case; `scan_slot_eq` below
proves that they agree with it. -/

/-- The known Device matched by slot `i` when the scan starts: the search of lines 105-116
run on the context as the scan found it. -/
def lookup (known : List libusby_device) (i : Nat) : Option DevPtr :=
  find_known (initial_heap known) i (ctx_devices known)

/-- The ways one iteration of the slot loop can go. -/
inductive Outcome where
  /-- `CreateFileW` failed: `continue` (line 103) -/
  | absent
  /-- a known Device matched and appending it failed: `goto error` (line 112) -/
  | known_fail (p : DevPtr)
  /-- a known Device matched, was appended and referenced (lines 111-114) -/
  | known_ok (p : DevPtr)
  /-- no match and `usbyi_alloc_device` returned `NULL`: `continue` (line 124) -/
  | alloc_fail
  /-- no match, and the new Device was released and the handle closed (lines 130-131) -/
  | discarded
  /-- no match, and the new Device was appended and filled in (lines 135-137) -/
  | created
  deriving DecidableEq, Repr

/-- Which way the iteration for slot `i` goes, read off the conditions of lines 102-128. -/
def slot_outcome (k : Consts) (known : List libusby_device) (e : SlotEnv) (i : Nat) : Outcome :=
  if e.hFile = INVALID_HANDLE_VALUE then Outcome.absent
  else
    match lookup known i with
    | some p => if e.append < 0 then Outcome.known_fail p else Outcome.known_ok p
    | none =>
      if e.alloc_ok = false then Outcome.alloc_fail
      else if (libusb0_get_device_descriptor k e.io e.hFile).1 < 0 ∨ e.sanitize < 0 ∨ e.append < 0
      then Outcome.discarded
      else Outcome.created

/-- The entry an iteration adds to the result list. -/
def Outcome.entry (i : Nat) : Outcome → Option DevPtr
  | Outcome.known_ok p => some p
  | Outcome.created => some (DevPtr.fresh i)
  | _ => none

/-- The external calls of the new-device branch after the descriptor request, when the
candidate is discarded (lines 126-131). -/
def discard_log (k : Consts) (e : SlotEnv) (i : Nat) : List Event :=
  (if (libusb0_get_device_descriptor k e.io e.hFile).1 < 0 then []
    else if e.sanitize < 0 then [Event.usbyi_sanitize_device_desc (DevPtr.fresh i) e.sanitize]
    else [Event.usbyi_sanitize_device_desc (DevPtr.fresh i) e.sanitize,
      Event.usbyi_append_device_list (DevPtr.fresh i) e.append]) ++
  [Event.libusby_unref_device (DevPtr.fresh i), Event.CloseHandle e.hFile]

/-- The external calls an iteration makes, by the way it goes. -/
def Outcome.log (k : Consts) (e : SlotEnv) (i : Nat) : Outcome → List Event
  | Outcome.absent => [Event.CreateFileW i e.hFile]
  | Outcome.known_fail p => [Event.CreateFileW i e.hFile, Event.usbyi_append_device_list p e.append]
  | Outcome.known_ok p =>
    [Event.CreateFileW i e.hFile, Event.usbyi_append_device_list p e.append,
      Event.libusby_ref_device p]
  | Outcome.alloc_fail => [Event.CreateFileW i e.hFile, Event.usbyi_alloc_device none]
  | Outcome.discarded =>
    [Event.CreateFileW i e.hFile, Event.usbyi_alloc_device (some (DevPtr.fresh i))] ++
      (libusb0_get_device_descriptor k e.io e.hFile).2 ++ discard_log k e i
  | Outcome.created =>
    [Event.CreateFileW i e.hFile, Event.usbyi_alloc_device (some (DevPtr.fresh i))] ++
      (libusb0_get_device_descriptor k e.io e.hFile).2 ++
      [Event.usbyi_sanitize_device_desc (DevPtr.fresh i) e.sanitize,
        Event.usbyi_append_device_list (DevPtr.fresh i) e.append]

/-- The device objects after an iteration, by the way it goes. -/
def Outcome.heap (e : SlotEnv) (i : Nat) (heap : DevPtr → libusby_device) :
    Outcome → (DevPtr → libusby_device)
  | Outcome.known_ok p =>
    Function.update heap p { heap p with ref_count := (heap p).ref_count + 1 }
  | Outcome.discarded =>
    Function.update heap (DevPtr.fresh i) { ref_count := 0, devpriv := { devno := 0, hFile := NULL } }
  | Outcome.created =>
    Function.update heap (DevPtr.fresh i)
      { ref_count := 1, devpriv := { devno := (i : Int), hFile := e.hFile } }
  | _ => heap

/-- The memory after an iteration that went the way `o`. -/
def Outcome.after (k : Consts) (e : SlotEnv) (i : Nat) (s : ScanState) (o : Outcome) : ScanState :=
  { heap := o.heap e i s.heap
    devlist := s.devlist ++ (o.entry i).toList
    log := s.log ++ o.log k e i }

/-- The slot indices stored in the known Devices are those the scan found. -/
def KnownUntouched (known : List libusby_device) (s : ScanState) : Prop :=
  ∀ b, (s.heap (DevPtr.known b)).devpriv = (initial_heap known (DevPtr.known b)).devpriv

/-- The memory after the iterations for slots `1..j`, when all of them went on to the next
slot. -/
def state_after (k : Consts) (known : List libusby_device) (env : Nat → SlotEnv) : Nat → ScanState
  | 0 => initial_state known
  | j + 1 =>
    (slot_outcome k known (env (j + 1)) (j + 1)).after k (env (j + 1)) (j + 1)
      (state_after k known env j)

/-- The iteration for slot `j` ends in `goto error`. -/
def fails_at (k : Consts) (known : List libusby_device) (env : Nat → SlotEnv) (j : Nat) : Prop :=
  ∃ p, slot_outcome k known (env j) j = Outcome.known_fail p

/-- Two environments report the same outcomes for a slot: the open, the allocation, the
descriptor fetch, the sanitization and the append each succeed in both or fail in both
(the handle values and byte counts may differ). -/
def same_outcomes (k : Consts) (a b : SlotEnv) : Prop :=
  (a.hFile = INVALID_HANDLE_VALUE ↔ b.hFile = INVALID_HANDLE_VALUE) ∧
  a.alloc_ok = b.alloc_ok ∧
  ((libusb0_get_device_descriptor k a.io a.hFile).1 < 0 ↔
    (libusb0_get_device_descriptor k b.io b.hFile).1 < 0) ∧
  (a.sanitize < 0 ↔ b.sanitize < 0) ∧
  (a.append < 0 ↔ b.append < 0)

/-! ## Sample data used by the concrete instances below -/

/-- An OS that completes a control request inline with 18 bytes. -/
def sampleSyncOk : SyncEnv :=
  { hEvent := 100, ioctl := { res := true, dwTransferred := 18, lastError := 0 },
    wait := { res := false, dwTransferred := 0, lastError := 0 } }

/-- An OS whose control request goes pending and then completes with 18 bytes. -/
def sampleSyncPending : SyncEnv :=
  { hEvent := 100, ioctl := { res := false, dwTransferred := 0, lastError := 997 },
    wait := { res := true, dwTransferred := 18, lastError := 0 } }

/-- An OS whose control request fails at once with `ERROR_BUSY`. -/
def sampleSyncBusy : SyncEnv :=
  { hEvent := 100, ioctl := { res := false, dwTransferred := 0, lastError := 170 },
    wait := { res := false, dwTransferred := 0, lastError := 0 } }

/-- An OS whose control request goes pending and then fails with error 31. -/
def sampleSyncFail : SyncEnv :=
  { hEvent := 100, ioctl := { res := false, dwTransferred := 0, lastError := 997 },
    wait := { res := false, dwTransferred := 0, lastError := 31 } }

/-- An OS that cannot create the per-call event. -/
def sampleSyncNoEvent : SyncEnv :=
  { hEvent := 0, ioctl := { res := true, dwTransferred := 18, lastError := 0 },
    wait := { res := false, dwTransferred := 0, lastError := 0 } }

/-- A bulk IN transfer on an open device with a completion callback. -/
def sampleTransfer : libusby_transfer :=
  { dev_handle := some { hFile := 7 }, endpoint := 0x81, type := 2, length := 64,
    status := libusby_transfer_status.LIBUSBY_TRANSFER_ERROR, actual_length := 3,
    callback := some 1 }

/-- A context with `CancelIoEx` resolved, every transfer being `sampleTransfer`, and
nothing in flight. -/
def sampleWorld : World :=
  { ctxpriv := { hKernel32 := 1, cancel_io_ex := true }, transfers := fun _ => sampleTransfer,
    pending := [], log := [] }

/-- The same context on a platform without `CancelIoEx`. -/
def sampleWorldNoCancelEx : World :=
  { ctxpriv := { hKernel32 := 1, cancel_io_ex := false }, transfers := fun _ => sampleTransfer,
    pending := [], log := [] }

/-- A context in which transfers 1 and 2 are in flight. -/
def sampleWorldInFlight : World :=
  { ctxpriv := { hKernel32 := 1, cancel_io_ex := true }, transfers := fun _ => sampleTransfer,
    pending := [1, 2], log := [] }

/-- A `DeviceIoControl` that starts an asynchronous operation. -/
def samplePendingIo : IoOutcome := { res := false, dwTransferred := 0, lastError := 997 }

/-- A completed overlapped operation of 64 bytes. -/
def sampleDoneIo : IoOutcome := { res := true, dwTransferred := 64, lastError := 0 }

/-- Caller callbacks that leave the backend's memory alone. -/
def sampleUser : Nat → Nat → World → World := fun _ _ w => w

/-- Two submissions and two reaps, interleaved. -/
def sampleSchedule : List Op :=
  [Op.submit 4 samplePendingIo, Op.submit 5 sampleDoneIo, Op.reap 4 sampleDoneIo,
    Op.reap 5 { res := false, dwTransferred := 0, lastError := 995 }]

/-- A slot that is not present: `CreateFileW` fails. -/
def absentSlot : SlotEnv :=
  { hFile := INVALID_HANDLE_VALUE, alloc_ok := true, io := sampleSyncOk, sanitize := 0,
    append := 0 }

/-- A present slot, opened as handle `h`, for which every later call succeeds. -/
def presentSlot (h : HANDLE) : SlotEnv :=
  { hFile := h, alloc_ok := true, io := sampleSyncOk, sanitize := 0, append := 0 }

/-- An environment in which exactly the slots of `present` exist; slot `i` opens as handle
`100 + i` and every later call succeeds. -/
def sampleEnv (present : List Nat) : Nat → SlotEnv :=
  fun i => if i ∈ present then presentSlot (100 + (i : Int)) else absentSlot

/-- The environment of `sampleEnv [1]` in which the allocation for slot 1 fails. -/
def sampleEnvAllocFails : Nat → SlotEnv :=
  fun i => if i = 1 then { presentSlot 101 with alloc_ok := false } else absentSlot

/-- An environment with slot 1 present and new, whose append to the result list fails. -/
def sampleEnvAppendFails : Nat → SlotEnv :=
  fun i => if i = 1 then { presentSlot 101 with append := -11 } else absentSlot

/-- An environment with slot 1 present and new, whose descriptor request fails. -/
def sampleEnvFetchFails : Nat → SlotEnv :=
  fun i => if i = 1 then { presentSlot 101 with io := sampleSyncFail }
    else if i = 2 then presentSlot 102 else absentSlot

/-- An environment with slots 1 and 2 present, in which the append for slot 2 fails. -/
def sampleEnvKnownAppendFails : Nat → SlotEnv :=
  fun i => if i = 1 then presentSlot 101
    else if i = 2 then { presentSlot 102 with append := -11 } else absentSlot

/-- A context that already knows the device of slot 1, with cached handle 50. -/
def sampleKnown : List libusby_device :=
  [{ ref_count := 1, devpriv := { devno := 1, hFile := 50 } }]

/-- A context that already knows the devices of slots 1 and 2. -/
def sampleKnownTwo : List libusby_device :=
  [{ ref_count := 1, devpriv := { devno := 1, hFile := 50 } },
   { ref_count := 1, devpriv := { devno := 2, hFile := 51 } }]

/-! ## Helper lemmas -/

theorem DWORD_to_int_of_lt (n : DWORD) (h : n < 2 ^ 31) : DWORD_to_int n = (n : Int) := by
  have h1 : n % 2 ^ 32 = n := Nat.mod_eq_of_lt (lt_trans h (by norm_num))
  unfold DWORD_to_int
  rw [h1, if_pos h]

/-! ## The synchronous control channel -/

/-- C2: `sync_device_io_control` returns `LIBUSBY_ERROR_NO_MEM` without any driver request
when the per-call event cannot be created; otherwise it returns the byte count when the
request succeeded at once or after a pending wait (the count being one an `int` can hold),
`LIBUSBY_ERROR_BUSY` when the final OS error is `ERROR_BUSY` and `LIBUSBY_ERROR_IO` for
every other final OS error; and whenever the event was created it is closed exactly once,
as the last call before returning, after exactly one driver request. -/
theorem sync_device_io_control_outcomes (k : Consts) (env : SyncEnv) (hFile : HANDLE)
    (dwControlCode : DWORD) (req : libusb0_win32_request) (out_len : Int) :
    (env.hEvent = NULL →
      (sync_device_io_control k env hFile dwControlCode req out_len).1 = k.LIBUSBY_ERROR_NO_MEM ∧
      (sync_device_io_control k env hFile dwControlCode req out_len).2 =
        [Event.CreateEvent env.hEvent] ∧
      ∀ ev ∈ (sync_device_io_control k env hFile dwControlCode req out_len).2,
        ev.isDeviceIoControl = false) ∧
    (env.hEvent ≠ NULL →
      (env.ioctl.res = true → env.ioctl.dwTransferred < 2 ^ 31 →
        (sync_device_io_control k env hFile dwControlCode req out_len).1 =
          (env.ioctl.dwTransferred : Int)) ∧
      (env.ioctl.res = false → env.ioctl.lastError = ERROR_IO_PENDING → env.wait.res = true →
        env.wait.dwTransferred < 2 ^ 31 →
        (sync_device_io_control k env hFile dwControlCode req out_len).1 =
          (env.wait.dwTransferred : Int)) ∧
      (env.ioctl.res = false → env.ioctl.lastError ≠ ERROR_IO_PENDING →
        env.ioctl.lastError ≠ ERROR_SUCCESS →
        (sync_device_io_control k env hFile dwControlCode req out_len).1 =
          if env.ioctl.lastError = ERROR_BUSY then k.LIBUSBY_ERROR_BUSY
          else k.LIBUSBY_ERROR_IO) ∧
      (env.ioctl.res = false → env.ioctl.lastError = ERROR_IO_PENDING → env.wait.res = false →
        env.wait.lastError ≠ ERROR_SUCCESS →
        (sync_device_io_control k env hFile dwControlCode req out_len).1 =
          if env.wait.lastError = ERROR_BUSY then k.LIBUSBY_ERROR_BUSY
          else k.LIBUSBY_ERROR_IO) ∧
      ((sync_device_io_control k env hFile dwControlCode req out_len).2.filter
          Event.isDeviceIoControl =
        [Event.DeviceIoControl hFile dwControlCode req out_len
          (OVERLAPPED.onStack env.hEvent)]) ∧
      (sync_device_io_control k env hFile dwControlCode req out_len).2.count
        (Event.CloseHandle env.hEvent) = 1 ∧
      (sync_device_io_control k env hFile dwControlCode req out_len).2.getLast? =
        some (Event.CloseHandle env.hEvent)) := by
  constructor
  · intro h
    simp [sync_device_io_control, h, Event.isDeviceIoControl]
  · intro h
    refine ⟨?_, ?_, ?_, ?_, ?_, ?_, ?_⟩
    · intro h1 h2
      simp [sync_device_io_control, sync_request_result, h, h1, DWORD_to_int_of_lt _ h2]
    · intro h1 h2 h3 h4
      simp [sync_device_io_control, sync_request_result, h, h1, h2, h3, DWORD_to_int_of_lt _ h4]
    · intro h1 h2 h3
      simp [sync_device_io_control, sync_request_result, h, h1, h2, h3]
      split_ifs <;> rfl
    · intro h1 h2 h3 h4
      simp [sync_device_io_control, sync_request_result, h, h1, h2, h3, h4]
      split_ifs <;> rfl
    · simp only [sync_device_io_control, sync_request_log, if_neg h]
      split_ifs <;> simp [Event.isDeviceIoControl, List.filter]
    · simp only [sync_device_io_control, sync_request_log, if_neg h]
      split_ifs <;> simp [List.count_cons]
    · simp only [sync_device_io_control, sync_request_log, if_neg h]
      split_ifs <;> simp [List.getLast?_cons_cons, List.getLast?_append]

/-- Instances of C2: no event, inline success, success after a pending wait, busy, another
failure after a pending wait, and the single close of the event. -/
theorem sync_device_io_control_outcomes_witness :
    (sync_device_io_control sampleConsts sampleSyncNoEvent 7 1 {} 0).1 = -11 ∧
    (sync_device_io_control sampleConsts sampleSyncOk 7 1 {} 18).1 = 18 ∧
    (sync_device_io_control sampleConsts sampleSyncPending 7 1 {} 18).1 = 18 ∧
    (sync_device_io_control sampleConsts sampleSyncBusy 7 1 {} 18).1 = -6 ∧
    (sync_device_io_control sampleConsts sampleSyncFail 7 1 {} 18).1 = -1 ∧
    (sync_device_io_control sampleConsts sampleSyncFail 7 1 {} 18).2.count
      (Event.CloseHandle 100) = 1 :=
  ⟨((sync_device_io_control_outcomes sampleConsts sampleSyncNoEvent 7 1 {} 0).1 rfl).1,
   ((sync_device_io_control_outcomes sampleConsts sampleSyncOk 7 1 {} 18).2 (by decide)).1
      rfl (by decide),
   ((sync_device_io_control_outcomes sampleConsts sampleSyncPending 7 1 {} 18).2
      (by decide)).2.1 rfl rfl rfl (by decide),
   ((sync_device_io_control_outcomes sampleConsts sampleSyncBusy 7 1 {} 18).2
      (by decide)).2.2.1 rfl (by decide) (by decide),
   ((sync_device_io_control_outcomes sampleConsts sampleSyncFail 7 1 {} 18).2
      (by decide)).2.2.2.1 rfl rfl rfl (by decide),
   ((sync_device_io_control_outcomes sampleConsts sampleSyncFail 7 1 {} 18).2
      (by decide)).2.2.2.2.2.1⟩

/-! ## Reap classification -/

/-- C1: `libusb0_update_finished_transfer` gives status COMPLETED and `actual_length = n` for
`ERROR_SUCCESS` (the field receives the OS's byte count converted to `int`, which is `n`
for every count an `int` can hold, in particular for every count up to the requested
`length`), status CANCELLED and `actual_length = 0` for `ERROR_OPERATION_ABORTED`, and
status ERROR and `actual_length = 0` for every other code; reap stores exactly this
classification of the OS-reported result in the transfer before the callback runs, and the
transfer still holds it when reap returns if the callback does not write to transfers; and
the resulting status and `actual_length` are the same whatever the transfer held before
and whether or not `libusb0_cancel_transfer` ran before. -/
theorem reap_classification (tran : libusby_transfer) (e n : DWORD) :
    (e = ERROR_SUCCESS →
      (libusb0_update_finished_transfer tran e n).status =
        libusby_transfer_status.LIBUSBY_TRANSFER_COMPLETED ∧
      (libusb0_update_finished_transfer tran e n).actual_length = DWORD_to_int n ∧
      (n < 2 ^ 31 → (libusb0_update_finished_transfer tran e n).actual_length = (n : Int)) ∧
      (0 ≤ tran.length → (n : Int) ≤ tran.length → tran.length < 2 ^ 31 →
        (libusb0_update_finished_transfer tran e n).actual_length = (n : Int))) ∧
    (e = ERROR_OPERATION_ABORTED →
      (libusb0_update_finished_transfer tran e n).status =
        libusby_transfer_status.LIBUSBY_TRANSFER_CANCELLED ∧
      (libusb0_update_finished_transfer tran e n).actual_length = 0) ∧
    (e ≠ ERROR_SUCCESS → e ≠ ERROR_OPERATION_ABORTED →
      (libusb0_update_finished_transfer tran e n).status =
        libusby_transfer_status.LIBUSBY_TRANSFER_ERROR ∧
      (libusb0_update_finished_transfer tran e n).actual_length = 0) ∧
    (∀ tran' : libusby_transfer,
      (libusb0_update_finished_transfer tran' e n).status =
        (libusb0_update_finished_transfer tran e n).status ∧
      (libusb0_update_finished_transfer tran' e n).actual_length =
        (libusb0_update_finished_transfer tran e n).actual_length) ∧
    (∀ (os : IoOutcome) (t : Nat) (h : libusby_device_handle) (w : World),
      (reap_before_callback os t h w).transfers t =
        libusb0_update_finished_transfer (w.transfers t)
          (if os.res = true then ERROR_SUCCESS else os.lastError) os.dwTransferred) ∧
    (∀ (k : Consts) (cenv : SyncEnv) (os : IoOutcome) (t : Nat) (h : libusby_device_handle)
        (w : World),
      ((reap_before_callback os t h (libusb0_cancel_transfer k cenv t w).2).transfers t).status =
        ((reap_before_callback os t h w).transfers t).status ∧
      ((reap_before_callback os t h
          (libusb0_cancel_transfer k cenv t w).2).transfers t).actual_length =
        ((reap_before_callback os t h w).transfers t).actual_length) ∧
    (∀ (user : Nat → Nat → World → World) (os : IoOutcome) (t : Nat)
        (h : libusby_device_handle) (w : World),
      (w.transfers t).dev_handle = some h →
      (∀ fn x v, (user fn x v).transfers = v.transfers) →
      ∃ w1, libusb0_reap_transfer user os t w = some w1 ∧
        w1.transfers t = libusb0_update_finished_transfer (w.transfers t)
          (if os.res = true then ERROR_SUCCESS else os.lastError) os.dwTransferred) := by
  have hind : ∀ a b : libusby_transfer,
      (libusb0_update_finished_transfer a e n).status =
        (libusb0_update_finished_transfer b e n).status ∧
      (libusb0_update_finished_transfer a e n).actual_length =
        (libusb0_update_finished_transfer b e n).actual_length := by
    intro a b
    unfold libusb0_update_finished_transfer
    split_ifs <;> exact ⟨rfl, rfl⟩
  refine ⟨?_, ?_, ?_, ?_, ?_, ?_, ?_⟩
  · intro h
    have hlt : n < 2 ^ 31 →
        (libusb0_update_finished_transfer tran e n).actual_length = (n : Int) := by
      intro hn
      simp [libusb0_update_finished_transfer, h, DWORD_to_int_of_lt n hn]
    refine ⟨by simp [libusb0_update_finished_transfer, h],
      by simp [libusb0_update_finished_transfer, h], hlt, ?_⟩
    intro _ h2 h3
    have h4 : (n : Int) < 2 ^ 31 := lt_of_le_of_lt h2 h3
    exact hlt (by exact_mod_cast h4)
  · intro h
    have h0 : ERROR_OPERATION_ABORTED ≠ ERROR_SUCCESS := by decide
    simp [libusb0_update_finished_transfer, h, h0]
  · intro h1 h2
    simp [libusb0_update_finished_transfer, h1, h2]
  · intro tran'
    exact hind tran' tran
  · intro os t h w
    simp [reap_before_callback, usbyi_win32_remove_transfer, World.emit]
  · intro k cenv os t h w
    have hc : (libusb0_cancel_transfer k cenv t w).2.transfers = w.transfers := by
      unfold libusb0_cancel_transfer
      split
      · split_ifs <;> rfl
      · rfl
    simp only [reap_before_callback, usbyi_win32_remove_transfer, World.emit, hc,
      Function.update_same, and_self]
  · intro user os t h w hh huser
    have e1 : libusb0_reap_transfer user os t w =
        some ((invoke_callback user t (reap_before_callback os t h w)).emit
          [Event.SetEvent t]) := by
      simp only [libusb0_reap_transfer, hh]
    refine ⟨_, e1, ?_⟩
    unfold invoke_callback
    split
    · simp [World.emit, huser, reap_before_callback, usbyi_win32_remove_transfer]
    · simp [World.emit, reap_before_callback, usbyi_win32_remove_transfer]

/-- The conversion of line 176 at a count no `int` can hold: 2^31 bytes are stored as
-2^31. -/
theorem update_finished_transfer_wraps :
    (libusb0_update_finished_transfer sampleTransfer 0 (2 ^ 31)).actual_length = -(2 ^ 31) := by
  decide

/-- Instances of C1: success with 5 bytes, abort, and error 31 on a transfer of requested
length 64 that held status ERROR and length 3. -/
theorem reap_classification_witness :
    ((libusb0_update_finished_transfer sampleTransfer 0 5).status =
        libusby_transfer_status.LIBUSBY_TRANSFER_COMPLETED ∧
      (libusb0_update_finished_transfer sampleTransfer 0 5).actual_length = 5) ∧
    ((libusb0_update_finished_transfer sampleTransfer 995 5).status =
        libusby_transfer_status.LIBUSBY_TRANSFER_CANCELLED ∧
      (libusb0_update_finished_transfer sampleTransfer 995 5).actual_length = 0) ∧
    ((libusb0_update_finished_transfer sampleTransfer 31 5).status =
        libusby_transfer_status.LIBUSBY_TRANSFER_ERROR ∧
      (libusb0_update_finished_transfer sampleTransfer 31 5).actual_length = 0) :=
  ⟨⟨((reap_classification sampleTransfer 0 5).1 rfl).1,
    ((reap_classification sampleTransfer 0 5).1 rfl).2.2.1 (by decide)⟩,
   (reap_classification sampleTransfer 995 5).2.1 rfl,
   (reap_classification sampleTransfer 31 5).2.2.1 (by decide) (by decide)⟩

/-! ## Submission -/

/-- C3: for a transfer with a device handle, `libusb0_submit_transfer` returns
`LIBUSBY_SUCCESS` exactly when the type is bulk or interrupt and the driver request
completed inline or reported `ERROR_IO_PENDING`; the pending set gains one entry for the
transfer (at the end) exactly in that case and is unchanged otherwise; a type that is
neither bulk nor interrupt gives `LIBUSBY_ERROR_INVALID_PARAM` with no external call at
all; a driver failure other than `ERROR_IO_PENDING` gives `LIBUSBY_ERROR_IO`. -/
theorem libusb0_submit_transfer_outcomes (k : Consts) (hk : k.ErrorsNegative) (os : IoOutcome)
    (t : Nat) (w : World) (h : libusby_device_handle)
    (hh : (w.transfers t).dev_handle = some h) :
    ∃ ret w1, libusb0_submit_transfer k os t w = some (ret, w1) ∧
      (ret = k.LIBUSBY_SUCCESS ↔
        ((w.transfers t).type = k.LIBUSBY_TRANSFER_TYPE_BULK ∨
          (w.transfers t).type = k.LIBUSBY_TRANSFER_TYPE_INTERRUPT) ∧
        (os.res = true ∨ os.lastError = ERROR_IO_PENDING)) ∧
      (w1.pending = if ret = k.LIBUSBY_SUCCESS then w.pending ++ [t] else w.pending) ∧
      (w1.pending.count t = w.pending.count t + if ret = k.LIBUSBY_SUCCESS then 1 else 0) ∧
      (¬ ((w.transfers t).type = k.LIBUSBY_TRANSFER_TYPE_BULK ∨
          (w.transfers t).type = k.LIBUSBY_TRANSFER_TYPE_INTERRUPT) →
        ret = k.LIBUSBY_ERROR_INVALID_PARAM ∧ w1.log = w.log) ∧
      (((w.transfers t).type = k.LIBUSBY_TRANSFER_TYPE_BULK ∨
          (w.transfers t).type = k.LIBUSBY_TRANSFER_TYPE_INTERRUPT) →
        os.res = false → os.lastError ≠ ERROR_IO_PENDING → ret = k.LIBUSBY_ERROR_IO) ∧
      w1.transfers = w.transfers := by
  obtain ⟨h0, h1, h2, -, -⟩ := hk
  have hne1 : k.LIBUSBY_ERROR_IO ≠ k.LIBUSBY_SUCCESS := by omega
  have hne2 : k.LIBUSBY_ERROR_INVALID_PARAM ≠ k.LIBUSBY_SUCCESS := by omega
  by_cases hty : (w.transfers t).type = k.LIBUSBY_TRANSFER_TYPE_BULK ∨
      (w.transfers t).type = k.LIBUSBY_TRANSFER_TYPE_INTERRUPT
  · by_cases hos : os.res = false ∧ os.lastError ≠ ERROR_IO_PENDING
    · have e := show libusb0_submit_transfer k os t w = _ from by
        simp only [libusb0_submit_transfer, hh, if_pos hty, if_pos hos]
        rfl
      refine ⟨_, _, e, ?_⟩
      · have hnot : ¬ (os.res = true ∨ os.lastError = ERROR_IO_PENDING) := by
          rintro (h3 | h3)
          · rw [hos.1] at h3; exact Bool.noConfusion h3
          · exact hos.2 h3
        simp [hne1, hty, hnot, World.emit]
    · have e := show libusb0_submit_transfer k os t w = _ from by
        simp only [libusb0_submit_transfer, hh, if_pos hty, if_neg hos]
        rfl
      refine ⟨_, _, e, ?_⟩
      · have hyes : os.res = true ∨ os.lastError = ERROR_IO_PENDING := by
          by_cases h3 : os.res = true
          · exact Or.inl h3
          · right
            by_contra h4
            exact hos ⟨by simpa using h3, h4⟩
        have hcontra : os.res = false → os.lastError ≠ ERROR_IO_PENDING → False :=
          fun a b => hos ⟨a, b⟩
        simp only [usbyi_win32_add_transfer, World.emit, if_true, true_iff, true_and]
        refine ⟨⟨hty, hyes⟩, ?_, fun h3 => absurd hty h3, ?_⟩
        · simp [List.count_append]
        · exact ⟨fun _ a b => absurd b (fun b => hcontra a b), trivial⟩
  · refine ⟨k.LIBUSBY_ERROR_INVALID_PARAM, w, ?_, ?_⟩
    · simp only [libusb0_submit_transfer, hh, if_neg hty]
    · simp [hne2, hty]

/-- Instance of C3: a bulk IN transfer whose request goes pending is accepted and becomes
the one pending entry. -/
theorem libusb0_submit_transfer_outcomes_witness :
    ∃ ret w1, libusb0_submit_transfer sampleConsts samplePendingIo 4 sampleWorld =
        some (ret, w1) ∧ ret = 0 ∧ w1.pending = [4] := by
  obtain ⟨ret, w1, h1, h2, h3, -⟩ :=
    libusb0_submit_transfer_outcomes sampleConsts (by decide) samplePendingIo 4 sampleWorld
      { hFile := 7 } rfl
  have hret : ret = sampleConsts.LIBUSBY_SUCCESS :=
    h2.2 ⟨Or.inl rfl, Or.inr rfl⟩
  refine ⟨ret, w1, h1, hret, ?_⟩
  rw [h3, if_pos hret]
  rfl

/-! ## Cancellation -/

/-- The driver requests among the calls of one control-channel call. -/
theorem sync_log_driver_requests (k : Consts) (env : SyncEnv) (hFile : HANDLE)
    (dwControlCode : DWORD) (req : libusb0_win32_request) (out_len : Int) :
    (sync_device_io_control k env hFile dwControlCode req out_len).2.filter
        Event.isDeviceIoControl =
      if env.hEvent = NULL then []
      else [Event.DeviceIoControl hFile dwControlCode req out_len
        (OVERLAPPED.onStack env.hEvent)] := by
  by_cases h : env.hEvent = NULL
  · simp [sync_device_io_control, h, Event.isDeviceIoControl]
  · simp only [sync_device_io_control, sync_request_log, if_neg h]
    split_ifs <;> simp [Event.isDeviceIoControl, List.filter]

/-- A control-channel call never uses the cancel-by-handle primitive. -/
theorem sync_log_no_cancel (k : Consts) (env : SyncEnv) (hFile : HANDLE)
    (dwControlCode : DWORD) (req : libusb0_win32_request) (out_len : Int) (a : HANDLE)
    (o : OVERLAPPED) :
    Event.CancelIoEx a o ∉ (sync_device_io_control k env hFile dwControlCode req out_len).2 := by
  by_cases h : env.hEvent = NULL
  · simp [sync_device_io_control, h]
  · simp only [sync_device_io_control, sync_request_log, if_neg h]
    split_ifs <;> simp

/-- C8: `libusb0_cancel_transfer` always returns `LIBUSBY_SUCCESS` and leaves the transfers
(so status and `actual_length`), the pending set and the context as they were.  Without a
device handle it makes no external call.  With one, it makes exactly one cancel action:
when `CancelIoEx` was resolved, one call of it on the device's file handle and this
transfer's own `OVERLAPPED`; otherwise the calls of one control-channel request, which
holds no `CancelIoEx` call and whose only driver request (issued once when the channel's
event exists) is the abort-endpoint code carrying the transfer's endpoint. -/
theorem libusb0_cancel_transfer_effects (k : Consts) (env : SyncEnv) (t : Nat) (w : World) :
    (libusb0_cancel_transfer k env t w).1 = k.LIBUSBY_SUCCESS ∧
    (libusb0_cancel_transfer k env t w).2.transfers = w.transfers ∧
    (libusb0_cancel_transfer k env t w).2.pending = w.pending ∧
    (libusb0_cancel_transfer k env t w).2.ctxpriv = w.ctxpriv ∧
    ((w.transfers t).dev_handle = none → (libusb0_cancel_transfer k env t w).2.log = w.log) ∧
    (∀ h, (w.transfers t).dev_handle = some h → w.ctxpriv.cancel_io_ex = true →
      (libusb0_cancel_transfer k env t w).2.log =
        w.log ++ [Event.CancelIoEx h.hFile (OVERLAPPED.ofTransfer t)]) ∧
    (∀ h, (w.transfers t).dev_handle = some h → w.ctxpriv.cancel_io_ex = false →
      (libusb0_cancel_transfer k env t w).2.log =
        w.log ++ (sync_device_io_control k env h.hFile k.LIBUSB_IOCTL_ABORT_ENDPOINT
          { endpoint_endpoint := (w.transfers t).endpoint } 0).2 ∧
      (∀ a o, Event.CancelIoEx a o ∉
        (sync_device_io_control k env h.hFile k.LIBUSB_IOCTL_ABORT_ENDPOINT
          { endpoint_endpoint := (w.transfers t).endpoint } 0).2) ∧
      (sync_device_io_control k env h.hFile k.LIBUSB_IOCTL_ABORT_ENDPOINT
          { endpoint_endpoint := (w.transfers t).endpoint } 0).2.filter
          Event.isDeviceIoControl =
        if env.hEvent = NULL then []
        else [Event.DeviceIoControl h.hFile k.LIBUSB_IOCTL_ABORT_ENDPOINT
          { endpoint_endpoint := (w.transfers t).endpoint } 0
          (OVERLAPPED.onStack env.hEvent)]) := by
  refine ⟨?_, ?_, ?_, ?_, ?_, ?_, ?_⟩
  · unfold libusb0_cancel_transfer
    split
    · split_ifs <;> rfl
    · rfl
  · unfold libusb0_cancel_transfer
    split
    · split_ifs <;> rfl
    · rfl
  · unfold libusb0_cancel_transfer
    split
    · split_ifs <;> rfl
    · rfl
  · unfold libusb0_cancel_transfer
    split
    · split_ifs <;> rfl
    · rfl
  · intro h
    simp only [libusb0_cancel_transfer, h]
  · intro h hh hc
    simp only [libusb0_cancel_transfer, hh, hc, if_true, World.emit]
  · intro h hh hc
    refine ⟨?_, fun a o => sync_log_no_cancel _ _ _ _ _ _ a o, sync_log_driver_requests _ _ _ _ _ _⟩
    simp [libusb0_cancel_transfer, hh, hc, World.emit]

/-- Instances of C8: with `CancelIoEx` resolved the one call made is `CancelIoEx` on the
transfer's own operation; without it, the one driver request is the abort of endpoint 0x81. -/
theorem libusb0_cancel_transfer_effects_witness :
    (libusb0_cancel_transfer sampleConsts sampleSyncOk 4 sampleWorld).2.log =
      [Event.CancelIoEx 7 (OVERLAPPED.ofTransfer 4)] ∧
    (libusb0_cancel_transfer sampleConsts sampleSyncOk 4 sampleWorldNoCancelEx).2.log =
      [Event.CreateEvent 100,
        Event.DeviceIoControl 7 16 { endpoint_endpoint := 0x81 } 0 (OVERLAPPED.onStack 100),
        Event.CloseHandle 100] :=
  ⟨(libusb0_cancel_transfer_effects sampleConsts sampleSyncOk 4 sampleWorld).2.2.2.2.2.1
      { hFile := 7 } rfl rfl,
   ((libusb0_cancel_transfer_effects sampleConsts sampleSyncOk 4
      sampleWorldNoCancelEx).2.2.2.2.2.2 { hFile := 7 } rfl rfl).1⟩

/-! ## Reap -/

/-- The classification keeps the fields it does not assign. -/
theorem update_finished_transfer_static (tran : libusby_transfer) (e n : DWORD) :
    (libusb0_update_finished_transfer tran e n).dev_handle = tran.dev_handle ∧
    (libusb0_update_finished_transfer tran e n).type = tran.type ∧
    (libusb0_update_finished_transfer tran e n).callback = tran.callback := by
  unfold libusb0_update_finished_transfer
  split_ifs <;> exact ⟨rfl, rfl, rfl⟩

/-- The memory the callback is invoked in: pending set and fields of the transfers. -/
theorem reap_before_callback_spec (os : IoOutcome) (t : Nat) (h : libusby_device_handle)
    (w : World) :
    (reap_before_callback os t h w).pending = w.pending.filter (fun x => decide (x ≠ t)) ∧
    (reap_before_callback os t h w).log =
      w.log ++ [Event.GetOverlappedResult h.hFile (OVERLAPPED.ofTransfer t),
        Event.usbyi_win32_remove_transfer t] ∧
    (reap_before_callback os t h w).transfers t =
      libusb0_update_finished_transfer (w.transfers t)
        (if os.res = true then ERROR_SUCCESS else os.lastError) os.dwTransferred ∧
    (∀ x, ((reap_before_callback os t h w).transfers x).dev_handle =
        (w.transfers x).dev_handle ∧
      ((reap_before_callback os t h w).transfers x).type = (w.transfers x).type ∧
      ((reap_before_callback os t h w).transfers x).callback = (w.transfers x).callback) := by
  refine ⟨rfl, ?_, ?_, ?_⟩
  · simp [reap_before_callback, usbyi_win32_remove_transfer, World.emit]
  · simp [reap_before_callback, usbyi_win32_remove_transfer, World.emit]
  · intro x
    by_cases hx : x = t
    · subst hx
      simp only [reap_before_callback, usbyi_win32_remove_transfer, World.emit,
        Function.update_same]
      exact update_finished_transfer_static _ _ _
    · simp only [reap_before_callback, usbyi_win32_remove_transfer, World.emit,
        Function.update_noteq hx, and_self]

/-- With callbacks that leave the pending set and the transfers alone, a reap of a transfer
with a device handle removes the record and keeps the transfers' handles and types. -/
theorem reap_effect (user : Nat → Nat → World → World)
    (huser : ∀ fn t w, (user fn t w).pending = w.pending ∧ (user fn t w).transfers = w.transfers)
    (os : IoOutcome) (t : Nat) (h : libusby_device_handle) (w : World)
    (hh : (w.transfers t).dev_handle = some h) :
    ∃ w1, libusb0_reap_transfer user os t w = some w1 ∧
      w1.pending = w.pending.filter (fun x => decide (x ≠ t)) ∧
      ∀ x, (w1.transfers x).dev_handle = (w.transfers x).dev_handle ∧
        (w1.transfers x).type = (w.transfers x).type := by
  have hs := reap_before_callback_spec os t h w
  have e : libusb0_reap_transfer user os t w =
      some ((invoke_callback user t (reap_before_callback os t h w)).emit [Event.SetEvent t]) := by
    simp only [libusb0_reap_transfer, hh]
  refine ⟨_, e, ?_, ?_⟩
  · unfold invoke_callback
    split
    · simp only [World.emit, (huser _ _ _).1, hs.1]
    · simp only [World.emit, hs.1]
  · intro x
    unfold invoke_callback
    split
    · simp only [World.emit, (huser _ _ _).2]
      exact ⟨(hs.2.2.2 x).1, (hs.2.2.2 x).2.1⟩
    · simp only [World.emit]
      exact ⟨(hs.2.2.2 x).1, (hs.2.2.2 x).2.1⟩

/-- An accepted submission appends the transfer to the pending set and keeps the
transfers. -/
theorem submit_effect (k : Consts) (os : IoOutcome) (t : Nat) (w : World)
    (ha : accepted k os (w.transfers t) = true) :
    ∃ w1, libusb0_submit_transfer k os t w = some (k.LIBUSBY_SUCCESS, w1) ∧
      w1.pending = w.pending ++ [t] ∧ w1.transfers = w.transfers := by
  simp only [accepted, decide_eq_true_eq] at ha
  obtain ⟨h1, h2, h3⟩ := ha
  obtain ⟨h, hh⟩ := Option.ne_none_iff_exists'.mp h1
  have hos : ¬ (os.res = false ∧ os.lastError ≠ ERROR_IO_PENDING) := by
    rintro ⟨a, b⟩
    rcases h3 with h3 | h3
    · rw [a] at h3; exact Bool.noConfusion h3
    · exact b h3
  have e := show libusb0_submit_transfer k os t w = _ from by
    simp only [libusb0_submit_transfer, hh, if_pos h2, if_neg hos]
    rfl
  exact ⟨_, e, rfl, rfl⟩

/-- A valid schedule runs to the end and leaves the pending set as the schedule found it. -/
theorem run_valid_schedule (k : Consts) (user : Nat → Nat → World → World)
    (huser : ∀ fn t w, (user fn t w).pending = w.pending ∧ (user fn t w).transfers = w.transfers)
    (w : World) :
    ∀ (ops : List Op) (q : List Nat) (wi : World),
      wi.pending = w.pending ++ q →
      (∀ x ∈ q, x ∉ w.pending ∧ (w.transfers x).dev_handle ≠ none) →
      (∀ x, (wi.transfers x).dev_handle = (w.transfers x).dev_handle ∧
        (wi.transfers x).type = (w.transfers x).type) →
      valid_schedule k w ops q = true →
      ∃ w1, run k user ops wi = some w1 ∧ w1.pending = w.pending := by
  intro ops
  induction ops with
  | nil =>
    intro q wi hp _ _ hv
    simp only [valid_schedule, decide_eq_true_eq] at hv
    exact ⟨wi, rfl, by rw [hp, hv, List.append_nil]⟩
  | cons op ops ih =>
    intro q wi hp hq hst hv
    cases op with
    | submit t os =>
      simp only [valid_schedule, Bool.and_eq_true, decide_eq_true_eq] at hv
      obtain ⟨⟨⟨hv1, hv2⟩, hv3⟩, hv4⟩ := hv
      have ha : accepted k os (wi.transfers t) = true := by
        simp only [accepted, decide_eq_true_eq] at hv3 ⊢
        rw [(hst t).1, (hst t).2]
        exact hv3
      obtain ⟨w1, e1, e2, e3⟩ := submit_effect k os t wi ha
      have hnn : (w.transfers t).dev_handle ≠ none := by
        simp only [accepted, decide_eq_true_eq] at hv3
        exact hv3.1
      obtain ⟨w2, r1, r2⟩ := ih (q ++ [t]) w1
        (by rw [e2, hp, List.append_assoc])
        (by
          intro x hx
          rcases List.mem_append.mp hx with hx | hx
          · exact hq x hx
          · rw [List.mem_singleton.mp hx]
            exact ⟨hv2, hnn⟩)
        (by rw [e3]; exact hst)
        hv4
      exact ⟨w2, by simp only [run, e1, r1], r2⟩
    | reap t os =>
      simp only [valid_schedule, Bool.and_eq_true, decide_eq_true_eq] at hv
      obtain ⟨hv1, hv2⟩ := hv
      obtain ⟨h, hh⟩ := Option.ne_none_iff_exists'.mp (hq t hv1).2
      have hh1 : (wi.transfers t).dev_handle = some h := by rw [(hst t).1, hh]
      obtain ⟨w1, e1, e2, e3⟩ := reap_effect user huser os t h wi hh1
      have hfil : w.pending.filter (fun x => decide (x ≠ t)) = w.pending := by
        rw [List.filter_eq_self]
        intro a ha
        have : a ≠ t := fun e => (hq t hv1).1 (e ▸ ha)
        simpa using this
      obtain ⟨w2, r1, r2⟩ := ih (q.filter (fun x => decide (x ≠ t))) w1
        (by rw [e2, hp, List.filter_append, hfil])
        (fun x hx => hq x (List.mem_of_mem_filter hx))
        (fun x => ⟨(e3 x).1.trans (hst x).1, (e3 x).2.trans (hst x).2⟩)
        hv2
      exact ⟨w2, by simp only [run, e1, r1], r2⟩

/-- C9: one `libusb0_reap_transfer` call on a transfer with a device handle, for every
OS-reported outcome, (1) stores the classification in the transfer, (2) removes the record
from the pending set with one `usbyi_win32_remove_transfer` call, (3) then invokes the
callback once if one is set and not at all otherwise, (4) and signals the completion event
last.  The callback therefore runs in a memory whose pending set no longer holds the
record.  And every valid schedule of submissions and reaps (each reap of a transfer in
flight, nothing in flight at the end, callbacks leaving the pending set and the transfers
alone) runs to the end with the pending set, hence its size, as at the start. -/
theorem libusb0_reap_transfer_order (k : Consts) (user : Nat → Nat → World → World)
    (os : IoOutcome) (t : Nat) (w : World) (h : libusby_device_handle)
    (hh : (w.transfers t).dev_handle = some h) :
    (reap_before_callback os t h w).transfers t =
      libusb0_update_finished_transfer (w.transfers t)
        (if os.res = true then ERROR_SUCCESS else os.lastError) os.dwTransferred ∧
    (reap_before_callback os t h w).pending = w.pending.filter (fun x => decide (x ≠ t)) ∧
    t ∉ (reap_before_callback os t h w).pending ∧
    (reap_before_callback os t h w).log =
      w.log ++ [Event.GetOverlappedResult h.hFile (OVERLAPPED.ofTransfer t),
        Event.usbyi_win32_remove_transfer t] ∧
    (∀ fn, (w.transfers t).callback = some fn →
      libusb0_reap_transfer user os t w =
        some ((user fn t ((reap_before_callback os t h w).emit [Event.callback fn t])).emit
          [Event.SetEvent t])) ∧
    ((w.transfers t).callback = none →
      libusb0_reap_transfer user os t w =
        some ((reap_before_callback os t h w).emit [Event.SetEvent t]) ∧
      ((reap_before_callback os t h w).emit [Event.SetEvent t]).log =
        w.log ++ [Event.GetOverlappedResult h.hFile (OVERLAPPED.ofTransfer t),
          Event.usbyi_win32_remove_transfer t, Event.SetEvent t]) ∧
    (∀ ops : List Op,
      (∀ fn x v, (user fn x v).pending = v.pending ∧ (user fn x v).transfers = v.transfers) →
      valid_schedule k w ops [] = true →
      ∃ w1, run k user ops w = some w1 ∧ w1.pending = w.pending ∧
        w1.pending.length = w.pending.length) := by
  have hs := reap_before_callback_spec os t h w
  refine ⟨hs.2.2.1, hs.1, ?_, hs.2.1, ?_, ?_, ?_⟩
  · rw [hs.1]
    simp
  · intro fn hfn
    have hcb : ((reap_before_callback os t h w).transfers t).callback = some fn := by
      rw [(hs.2.2.2 t).2.2, hfn]
    simp only [libusb0_reap_transfer, hh, invoke_callback, hcb]
  · intro hnone
    have hcb : ((reap_before_callback os t h w).transfers t).callback = none := by
      rw [(hs.2.2.2 t).2.2, hnone]
    refine ⟨by simp only [libusb0_reap_transfer, hh, invoke_callback, hcb], ?_⟩
    simp only [World.emit, hs.2.1, List.append_assoc, List.cons_append, List.nil_append]
  · intro ops huser hv
    obtain ⟨w1, r1, r2⟩ := run_valid_schedule k user huser w ops [] w
      (by rw [List.append_nil]) (fun x hx => absurd hx (List.not_mem_nil x))
      (fun x => ⟨rfl, rfl⟩) hv
    exact ⟨w1, r1, r2, by rw [r2]⟩

/-- Instances of C9: reaping transfer 1 while 1 and 2 are in flight hands the callback a
pending set without 1, and two submissions and two reaps leave the pending set as it was. -/
theorem libusb0_reap_transfer_order_witness :
    (reap_before_callback sampleDoneIo 1 { hFile := 7 } sampleWorldInFlight).pending = [2] ∧
    1 ∉ (reap_before_callback sampleDoneIo 1 { hFile := 7 } sampleWorldInFlight).pending ∧
    ∃ w1, run sampleConsts sampleUser sampleSchedule sampleWorldInFlight = some w1 ∧
      w1.pending = [1, 2] ∧ w1.pending.length = 2 :=
  ⟨(libusb0_reap_transfer_order sampleConsts sampleUser sampleDoneIo 1 sampleWorldInFlight
      { hFile := 7 } rfl).2.1,
   (libusb0_reap_transfer_order sampleConsts sampleUser sampleDoneIo 1 sampleWorldInFlight
      { hFile := 7 } rfl).2.2.1,
   (libusb0_reap_transfer_order sampleConsts sampleUser sampleDoneIo 1 sampleWorldInFlight
      { hFile := 7 } rfl).2.2.2.2.2.2 sampleSchedule (fun _ _ _ => ⟨rfl, rfl⟩) (by decide)⟩

/-! ## The slot loop -/

/-- Loop rule for the slot loop: a property `P j s` that holds on entry and is carried over
every iteration that goes on gives `Q` of the result, provided the `error:` exit and the
normal exit give `Q`. -/
theorem scan_loop_rule (k : Consts) (ctx : List DevPtr) (env : Nat → SlotEnv)
    (P : Nat → ScanState → Prop) (Q : ScanResult → Prop) (last : Nat)
    (hstep : ∀ j s s1, j < last → P j s → scan_slot k ctx (env j) j s = Step.next s1 →
      P (j + 1) s1)
    (herr : ∀ j s s1, j < last → P j s → scan_slot k ctx (env j) j s = Step.error s1 →
      Q (scan_error k s1))
    (hexit : ∀ s, P last s →
      Q { ret := (s.devlist.length : Int), list := some s.devlist, final := s }) :
    ∀ (n i : Nat) (s : ScanState), i + n = last → P i s → Q (scan_loop k ctx env i n s) := by
  intro n
  induction n with
  | zero =>
    intro i s hi hP
    have : i = last := by omega
    subst this
    exact hexit s hP
  | succ n ih =>
    intro i s hi hP
    unfold scan_loop
    cases hs : scan_slot k ctx (env i) i s with
    | next s1 => exact ih (i + 1) s1 (by omega) (hstep i s s1 (by omega) hP hs)
    | error s1 => exact herr i s s1 (by omega) hP hs

/-- The search only reads the slot indices of the listed objects. -/
theorem find_known_congr (h1 h2 : DevPtr → libusby_device) (i : Nat) (l : List DevPtr)
    (h : ∀ p ∈ l, (h1 p).devpriv.devno = (h2 p).devpriv.devno) :
    find_known h1 i l = find_known h2 i l := by
  induction l with
  | nil => rfl
  | cons p ps ih =>
    simp only [find_known, h p (List.mem_cons_self p ps)]
    rw [ih (fun q hq => h q (List.mem_cons_of_mem p hq))]

/-- The context's device array holds exactly the known objects. -/
theorem mem_ctx_devices (known : List libusby_device) (p : DevPtr) :
    p ∈ ctx_devices known ↔ ∃ b, b < known.length ∧ p = DevPtr.known b := by
  simp only [ctx_devices, List.mem_map, List.mem_range]
  constructor
  · rintro ⟨b, hb, rfl⟩
    exact ⟨b, hb, rfl⟩
  · rintro ⟨b, hb, rfl⟩
    exact ⟨b, hb, rfl⟩

/-- What the search finds is an entry of the array with the slot index looked for. -/
theorem find_known_some (heap : DevPtr → libusby_device) (i : Nat) (l : List DevPtr) (p : DevPtr)
    (h : find_known heap i l = some p) : p ∈ l ∧ (heap p).devpriv.devno = (i : Int) := by
  induction l with
  | nil => simp [find_known] at h
  | cons q qs ih =>
    simp only [find_known] at h
    split_ifs at h with hq
    · injection h with h
      subst h
      exact ⟨List.mem_cons_self _ _, hq⟩
    · exact ⟨List.mem_cons_of_mem _ (ih h).1, (ih h).2⟩

/-- The search finds nothing exactly when no entry has the slot index. -/
theorem find_known_none (heap : DevPtr → libusby_device) (i : Nat) (l : List DevPtr) :
    find_known heap i l = none ↔ ∀ p ∈ l, (heap p).devpriv.devno ≠ (i : Int) := by
  induction l with
  | nil => simp [find_known]
  | cons q qs ih =>
    simp only [find_known, List.mem_cons, forall_eq_or_imp]
    split_ifs with hq
    · simp [hq]
    · simp [hq, ih]

/-- While the known Devices keep their slot indices, the search during the scan finds what
it would have found at the start. -/
theorem find_known_eq_lookup (known : List libusby_device) (s : ScanState)
    (hs : KnownUntouched known s) (i : Nat) :
    find_known s.heap i (ctx_devices known) = lookup known i := by
  unfold lookup
  apply find_known_congr
  intro p hp
  obtain ⟨b, -, rfl⟩ := (mem_ctx_devices known p).mp hp
  rw [hs b]

/-- One iteration of the slot loop, by the way it goes: it ends in `goto error` exactly
for `known_fail`, and the memory after it is `Outcome.after`. -/
theorem scan_slot_eq (k : Consts) (known : List libusby_device) (e : SlotEnv) (i : Nat)
    (s : ScanState) (hs : KnownUntouched known s) :
    scan_slot k (ctx_devices known) e i s =
      match slot_outcome k known e i with
      | Outcome.known_fail p => Step.error ((Outcome.known_fail p).after k e i s)
      | o => Step.next (o.after k e i s) := by
  unfold scan_slot slot_outcome
  rw [find_known_eq_lookup known s hs i]
  by_cases h1 : e.hFile = INVALID_HANDLE_VALUE
  · simp [h1, Outcome.after, Outcome.heap, Outcome.entry, Outcome.log, ScanState.emit]
  · simp only [h1, if_false]
    cases hl : lookup known i with
    | some p =>
      by_cases h2 : e.append < 0
      · simp [h2, Outcome.after, Outcome.heap, Outcome.entry, Outcome.log, ScanState.emit]
      · simp [h2, Outcome.after, Outcome.heap, Outcome.entry, Outcome.log, ScanState.emit,
          libusby_ref_device, usbyi_append_device_list]
    | none =>
      by_cases h3 : e.alloc_ok = false
      · simp [h3, Outcome.after, Outcome.heap, Outcome.entry, Outcome.log, ScanState.emit]
      · by_cases h4 : (libusb0_get_device_descriptor k e.io e.hFile).1 < 0
        · simp [h3, h4, Outcome.after, Outcome.heap, Outcome.entry, Outcome.log, ScanState.emit,
            scan_new_device, discard_candidate, discard_log, libusby_unref_device,
            usbyi_alloc_device]
        · by_cases h5 : e.sanitize < 0
          · simp [h3, h4, h5, Outcome.after, Outcome.heap, Outcome.entry, Outcome.log,
              ScanState.emit, scan_new_device, discard_candidate, discard_log,
              libusby_unref_device, usbyi_alloc_device]
          · by_cases h6 : e.append < 0
            · simp [h3, h4, h5, h6, Outcome.after, Outcome.heap, Outcome.entry, Outcome.log,
                ScanState.emit, scan_new_device, discard_candidate, discard_log,
                libusby_unref_device, usbyi_alloc_device]
            · simp [h3, h4, h5, h6, Outcome.after, Outcome.heap, Outcome.entry, Outcome.log,
                ScanState.emit, scan_new_device, set_devpriv, usbyi_append_device_list,
                usbyi_alloc_device]

/-- An iteration leaves the private data of the known Devices alone. -/
theorem after_knownUntouched (k : Consts) (known : List libusby_device) (e : SlotEnv) (i : Nat)
    (s : ScanState) (o : Outcome) (hs : KnownUntouched known s) :
    KnownUntouched known (o.after k e i s) := by
  intro b
  cases o with
  | known_ok p =>
    by_cases hp : DevPtr.known b = p
    · subst hp
      simp only [Outcome.after, Outcome.heap, Function.update_same]
      exact hs b
    · simp only [Outcome.after, Outcome.heap, Function.update_noteq hp]
      exact hs b
  | discarded =>
    have hp : DevPtr.known b ≠ DevPtr.fresh i := by simp
    simp only [Outcome.after, Outcome.heap, Function.update_noteq hp]
    exact hs b
  | created =>
    have hp : DevPtr.known b ≠ DevPtr.fresh i := by simp
    simp only [Outcome.after, Outcome.heap, Function.update_noteq hp]
    exact hs b
  | absent => exact hs b
  | known_fail p => exact hs b
  | alloc_fail => exact hs b

/-- The known Devices keep their private data through the iterations. -/
theorem state_after_knownUntouched (k : Consts) (known : List libusby_device)
    (env : Nat → SlotEnv) (j : Nat) : KnownUntouched known (state_after k known env j) := by
  induction j with
  | zero => intro b; rfl
  | succ j ih => exact after_knownUntouched k known _ _ _ _ ih

/-- The scan, when no iteration ends in `goto error`: it returns the length of the list
built by the iterations and stores that list. -/
theorem scan_eq_of_no_fail (k : Consts) (known : List libusby_device) (env : Nat → SlotEnv)
    (hno : ∀ j, 1 ≤ j → j < k.LIBUSB_MAX_NUMBER_OF_DEVICES → ¬ fails_at k known env j) :
    libusb0_get_device_list k known env =
      { ret := ((state_after k known env (k.LIBUSB_MAX_NUMBER_OF_DEVICES - 1)).devlist.length : Int)
        list := some (state_after k known env (k.LIBUSB_MAX_NUMBER_OF_DEVICES - 1)).devlist
        final := state_after k known env (k.LIBUSB_MAX_NUMBER_OF_DEVICES - 1) } := by
  unfold libusb0_get_device_list
  refine scan_loop_rule k (ctx_devices known) env
    (fun j s => 1 ≤ j ∧ s = state_after k known env (j - 1))
    (fun r => r = _) (1 + (k.LIBUSB_MAX_NUMBER_OF_DEVICES - 1)) ?_ ?_ ?_ _ 1 _ rfl ⟨le_refl 1, rfl⟩
  · rintro j s s1 hj ⟨h1, rfl⟩ hstep
    rw [scan_slot_eq k known (env j) j _ (state_after_knownUntouched k known env (j - 1))] at hstep
    refine ⟨by omega, ?_⟩
    obtain ⟨j, rfl⟩ : ∃ j0, j = j0 + 1 := ⟨j - 1, by omega⟩
    simp only [Nat.add_sub_cancel, state_after]
    split at hstep
    · exact Step.noConfusion hstep
    · injection hstep with hstep
      exact hstep.symm
  · rintro j s s1 hj ⟨h1, rfl⟩ hstep
    rw [scan_slot_eq k known (env j) j _ (state_after_knownUntouched k known env (j - 1))] at hstep
    exfalso
    split at hstep
    · rename_i p hp
      exact hno j h1 (by omega) ⟨p, hp⟩
    · exact Step.noConfusion hstep
  · rintro s ⟨-, rfl⟩
    simp only [Nat.add_sub_cancel_left]

/-- The scan, when the iteration for slot `j` is the first to end in `goto error`: the
`error:` exit runs on the memory that iteration left. -/
theorem scan_eq_of_first_fail (k : Consts) (known : List libusby_device) (env : Nat → SlotEnv)
    (j : Nat) (p : DevPtr) (h1 : 1 ≤ j) (h2 : j < k.LIBUSB_MAX_NUMBER_OF_DEVICES)
    (hj : slot_outcome k known (env j) j = Outcome.known_fail p)
    (hno : ∀ j0, 1 ≤ j0 → j0 < j → ¬ fails_at k known env j0) :
    libusb0_get_device_list k known env =
      scan_error k ((Outcome.known_fail p).after k (env j) j (state_after k known env (j - 1))) := by
  unfold libusb0_get_device_list
  refine scan_loop_rule k (ctx_devices known) env
    (fun j0 s => 1 ≤ j0 ∧ j0 ≤ j ∧ s = state_after k known env (j0 - 1))
    (fun r => r = _) (1 + (k.LIBUSB_MAX_NUMBER_OF_DEVICES - 1)) ?_ ?_ ?_ _ 1 _ rfl
    ⟨le_refl 1, h1, rfl⟩
  · rintro j0 s s1 hj0 ⟨h3, h4, rfl⟩ hstep
    rw [scan_slot_eq k known (env j0) j0 _ (state_after_knownUntouched k known env (j0 - 1))]
      at hstep
    have hlt : j0 < j := by
      rcases Nat.lt_or_eq_of_le h4 with h | h
      · exact h
      · subst h
        rw [hj] at hstep
        exact Step.noConfusion hstep
    refine ⟨by omega, hlt, ?_⟩
    obtain ⟨j0, rfl⟩ : ∃ j1, j0 = j1 + 1 := ⟨j0 - 1, by omega⟩
    simp only [Nat.add_sub_cancel, state_after]
    split at hstep
    · exact Step.noConfusion hstep
    · injection hstep with hstep
      exact hstep.symm
  · rintro j0 s s1 hj0 ⟨h3, h4, rfl⟩ hstep
    rw [scan_slot_eq k known (env j0) j0 _ (state_after_knownUntouched k known env (j0 - 1))]
      at hstep
    rcases Nat.lt_or_eq_of_le h4 with h | h
    · exfalso
      split at hstep
      · rename_i q hq
        exact hno j0 h3 h ⟨q, hq⟩
      · exact Step.noConfusion hstep
    · subst h
      rw [hj] at hstep
      injection hstep with hstep
      rw [← hstep]
  · rintro s ⟨h3, h4, -⟩
    omega

/-- Probed slots of a concatenated log. -/
theorem probes_append (a b : List Event) : probes (a ++ b) = probes a ++ probes b := by
  induction a with
  | nil => rfl
  | cons ev evs ih => cases ev <;> simp [probes, ih]

/-- A control-channel call opens no slot. -/
theorem probes_sync (k : Consts) (env : SyncEnv) (hFile : HANDLE) (dwControlCode : DWORD)
    (req : libusb0_win32_request) (out_len : Int) :
    probes (sync_device_io_control k env hFile dwControlCode req out_len).2 = [] := by
  by_cases h : env.hEvent = NULL
  · simp [sync_device_io_control, h, probes]
  · simp only [sync_device_io_control, sync_request_log, if_neg h]
    split_ifs <;> simp [probes]

/-- The descriptor fetch opens no slot. -/
theorem probes_get_device_descriptor (k : Consts) (env : SyncEnv) (hFile : HANDLE) :
    probes (libusb0_get_device_descriptor k env hFile).2 = [] := by
  simp only [libusb0_get_device_descriptor]
  split_ifs <;> exact probes_sync _ _ _ _ _ _

/-- An iteration opens its own slot, once. -/
theorem probes_outcome_log (k : Consts) (e : SlotEnv) (i : Nat) (o : Outcome) :
    probes (o.log k e i) = [i] := by
  cases o with
  | discarded =>
    simp only [Outcome.log, discard_log, probes_append, probes_get_device_descriptor]
    split_ifs <;> simp [probes]
  | created =>
    simp only [Outcome.log, probes_append, probes_get_device_descriptor]
    simp [probes]
  | absent => simp [Outcome.log, probes]
  | known_fail p => simp [Outcome.log, probes]
  | known_ok p => simp [Outcome.log, probes]
  | alloc_fail => simp [Outcome.log, probes]

/-- After the iterations for slots `1..j`, the slots opened are `1..j` in this order. -/
theorem probes_state_after (k : Consts) (known : List libusby_device) (env : Nat → SlotEnv)
    (j : Nat) : probes (state_after k known env j).log = List.range' 1 j := by
  induction j with
  | zero => rfl
  | succ j ih =>
    simp only [state_after, Outcome.after, probes_append, ih, probes_outcome_log,
      List.range'_1_concat, Nat.add_comm 1 j]

/-- After the iterations for slots `1..j`, the list holds the entries they added, in slot
order. -/
theorem state_after_devlist (k : Consts) (known : List libusby_device) (env : Nat → SlotEnv)
    (j : Nat) :
    (state_after k known env j).devlist =
      (List.range' 1 j).filterMap (fun i => (slot_outcome k known (env i) i).entry i) := by
  induction j with
  | zero => rfl
  | succ j ih =>
    simp only [state_after, Outcome.after, ih, List.range'_1_concat, List.filterMap_append,
      Nat.add_comm 1 j]
    cases he : (slot_outcome k known (env (j + 1)) (j + 1)).entry (j + 1) <;>
      simp [List.filterMap_cons, he]

/-- When an iteration appends a known Device: the slot opened, the search found the Device
and the append did not fail. -/
theorem slot_outcome_known_ok (k : Consts) (known : List libusby_device) (e : SlotEnv) (i : Nat)
    (q : DevPtr) (h : slot_outcome k known e i = Outcome.known_ok q) :
    lookup known i = some q ∧ e.hFile ≠ INVALID_HANDLE_VALUE ∧ ¬ e.append < 0 := by
  unfold slot_outcome at h
  by_cases h1 : e.hFile = INVALID_HANDLE_VALUE
  · simp [h1] at h
  · cases hl : lookup known i with
    | none =>
      simp only [h1, hl, if_false] at h
      split_ifs at h
    | some q1 =>
      simp only [h1, hl, if_false] at h
      split_ifs at h with h2
      injection h with h
      exact ⟨by rw [h], h1, h2⟩

/-- When an iteration ends in `goto error`: the slot opened, the search found a known
Device and appending it failed. -/
theorem slot_outcome_known_fail (k : Consts) (known : List libusby_device) (e : SlotEnv)
    (i : Nat) (q : DevPtr) :
    slot_outcome k known e i = Outcome.known_fail q ↔
      lookup known i = some q ∧ e.hFile ≠ INVALID_HANDLE_VALUE ∧ e.append < 0 := by
  unfold slot_outcome
  by_cases h1 : e.hFile = INVALID_HANDLE_VALUE
  · simp [h1]
  · cases hl : lookup known i with
    | none =>
      simp only [h1, if_false]
      constructor
      · intro h
        split_ifs at h
      · rintro ⟨h, -⟩
        exact Option.noConfusion h
    | some q1 =>
      simp only [h1, if_false]
      constructor
      · intro h
        split_ifs at h with h2
        injection h with h
        exact ⟨by rw [h], h1, h2⟩
      · rintro ⟨h, -, h2⟩
        injection h with h
        rw [if_pos h2, h]

/-- The entry an iteration adds is the new object of the slot or a known object whose
stored slot index is the slot's. -/
theorem entry_cases (k : Consts) (known : List libusby_device) (e : SlotEnv) (i : Nat)
    (p : DevPtr) (h : (slot_outcome k known e i).entry i = some p) :
    (p = DevPtr.fresh i ∧ slot_outcome k known e i = Outcome.created) ∨
    (∃ b, b < known.length ∧ p = DevPtr.known b ∧ lookup known i = some p ∧
      (initial_heap known (DevPtr.known b)).devpriv.devno = (i : Int) ∧
      slot_outcome k known e i = Outcome.known_ok p) := by
  cases ho : slot_outcome k known e i with
  | known_ok q =>
    rw [ho] at h
    simp only [Outcome.entry, Option.some.injEq] at h
    subst h
    right
    have hl : lookup known i = some q := (slot_outcome_known_ok k known e i q ho).1
    obtain ⟨hm, hd⟩ := find_known_some _ _ _ _ hl
    obtain ⟨b, hb, rfl⟩ := (mem_ctx_devices known q).mp hm
    exact ⟨b, hb, rfl, hl, hd, rfl⟩
  | created =>
    rw [ho] at h
    simp only [Outcome.entry, Option.some.injEq] at h
    exact Or.inl ⟨h.symm, rfl⟩
  | absent => rw [ho] at h; simp [Outcome.entry] at h
  | known_fail q => rw [ho] at h; simp [Outcome.entry] at h
  | alloc_fail => rw [ho] at h; simp [Outcome.entry] at h
  | discarded => rw [ho] at h; simp [Outcome.entry] at h

/-- The entries of the list are known objects or new objects of slots already processed. -/
theorem mem_state_after_devlist (k : Consts) (known : List libusby_device) (env : Nat → SlotEnv)
    (j : Nat) (p : DevPtr) (hp : p ∈ (state_after k known env j).devlist) :
    ∃ i, 1 ≤ i ∧ i ≤ j ∧ (slot_outcome k known (env i) i).entry i = some p := by
  rw [state_after_devlist, List.mem_filterMap] at hp
  obtain ⟨i, hi, he⟩ := hp
  rw [List.mem_range'_1] at hi
  exact ⟨i, hi.1, by omega, he⟩

/-- An iteration changes the private data of no object but the slot's new one. -/
theorem after_devpriv_of_ne (k : Consts) (e : SlotEnv) (i : Nat) (s : ScanState) (o : Outcome)
    (p : DevPtr) (hp : p ≠ DevPtr.fresh i) :
    ((o.after k e i s).heap p).devpriv = (s.heap p).devpriv := by
  cases o with
  | known_ok q =>
    by_cases hq : p = q
    · subst hq
      simp only [Outcome.after, Outcome.heap, Function.update_same]
    · simp only [Outcome.after, Outcome.heap, Function.update_noteq hq]
  | discarded => simp only [Outcome.after, Outcome.heap, Function.update_noteq hp]
  | created => simp only [Outcome.after, Outcome.heap, Function.update_noteq hp]
  | absent => rfl
  | known_fail q => rfl
  | alloc_fail => rfl

/-- After the iterations for slots `1..j`, every entry added by slot `i` stores slot index
`i`, and a new object stores the handle the slot was opened as. -/
theorem state_after_entry (k : Consts) (known : List libusby_device) (env : Nat → SlotEnv)
    (j i : Nat) (p : DevPtr) (h1 : 1 ≤ i) (h2 : i ≤ j)
    (he : (slot_outcome k known (env i) i).entry i = some p) :
    (state_after k known env j).devno p = (i : Int) ∧
    (p = DevPtr.fresh i → ((state_after k known env j).heap p).devpriv.hFile = (env i).hFile) := by
  induction j with
  | zero => omega
  | succ j ih =>
    rcases Nat.lt_or_eq_of_le h2 with hlt | heq
    · have hne : p ≠ DevPtr.fresh (j + 1) := by
        rcases entry_cases k known (env i) i p he with ⟨hp, -⟩ | ⟨b, -, hp, -⟩
        · rw [hp]
          intro hc
          injection hc with hc
          omega
        · rw [hp]
          simp
      have := ih (by omega)
      simp only [ScanState.devno, state_after] at this ⊢
      rw [after_devpriv_of_ne k _ _ _ _ p hne]
      exact this
    · subst heq
      rcases entry_cases k known (env (j + 1)) (j + 1) p he with ⟨hp, ho⟩ | ⟨b, -, hp, -, hd, -⟩
      · subst hp
        simp only [ScanState.devno, state_after, ho, Outcome.after, Outcome.heap,
          Function.update_same, implies_true, and_self]
      · subst hp
        refine ⟨?_, fun hc => by simp at hc⟩
        simp only [ScanState.devno]
        rw [state_after_knownUntouched k known env (j + 1) b]
        exact hd

/-- After the iterations for slots `1..j`, the slot indices stored in the entries of the
list are the slots that added an entry, in slot order. -/
theorem state_after_slots (k : Consts) (known : List libusby_device) (env : Nat → SlotEnv)
    (j : Nat) :
    (state_after k known env j).devlist.map (state_after k known env j).devno =
      (List.range' 1 j).filterMap
        (fun i => if ((slot_outcome k known (env i) i).entry i).isSome then some (i : Int)
          else none) := by
  rw [state_after_devlist]
  generalize hR : List.range' 1 j = R
  have hmem : ∀ i ∈ R, 1 ≤ i ∧ i ≤ j := by
    intro i hi
    rw [← hR, List.mem_range'_1] at hi
    omega
  clear hR
  induction R with
  | nil => rfl
  | cons i R ih =>
    have hi := hmem i (List.mem_cons_self i R)
    have ih := ih (fun x hx => hmem x (List.mem_cons_of_mem i hx))
    cases he : (slot_outcome k known (env i) i).entry i with
    | none => simp only [List.filterMap_cons, he, Option.isSome_none, Bool.false_eq_true,
        if_false, ih]
    | some p =>
      simp only [List.filterMap_cons, he, Option.isSome_some, if_true, List.map_cons, ih]
      rw [(state_after_entry k known env j i p hi.1 hi.2 he).1]

/-- The `error:` exit returns `LIBUSBY_ERROR_NO_MEM` and stores no list. -/
theorem scan_error_ret (k : Consts) (s : ScanState) :
    (scan_error k s).ret = k.LIBUSBY_ERROR_NO_MEM ∧ (scan_error k s).list = none :=
  ⟨rfl, rfl⟩

/-- When some iteration ends in `goto error`, the scan is the `error:` exit run after the
first such iteration. -/
theorem scan_of_exists_fail (k : Consts) (known : List libusby_device) (env : Nat → SlotEnv)
    (h : ∃ j, 1 ≤ j ∧ j < k.LIBUSB_MAX_NUMBER_OF_DEVICES ∧ fails_at k known env j) :
    ∃ j p, 1 ≤ j ∧ j < k.LIBUSB_MAX_NUMBER_OF_DEVICES ∧
      slot_outcome k known (env j) j = Outcome.known_fail p ∧
      libusb0_get_device_list k known env =
        scan_error k ((Outcome.known_fail p).after k (env j) j
          (state_after k known env (j - 1))) := by
  classical
  obtain ⟨h1, h2, p, hp⟩ := Nat.find_spec h
  refine ⟨Nat.find h, p, h1, h2, hp, ?_⟩
  apply scan_eq_of_first_fail k known env (Nat.find h) p h1 h2 hp
  intro j0 hj0 hlt hf
  exact Nat.find_min h hlt ⟨hj0, by omega, hf⟩

/-- Two scans of the same context whose iterations add the same entries and end in
`goto error` at the same slots return the same value and the same list, and the entries
store the same slot indices. -/
theorem scan_congr (k : Consts) (known : List libusby_device) (env env1 : Nat → SlotEnv)
    (hent : ∀ j, 1 ≤ j → j < k.LIBUSB_MAX_NUMBER_OF_DEVICES →
      (slot_outcome k known (env j) j).entry j = (slot_outcome k known (env1 j) j).entry j)
    (hfail : ∀ j, 1 ≤ j → j < k.LIBUSB_MAX_NUMBER_OF_DEVICES →
      (fails_at k known env j ↔ fails_at k known env1 j)) :
    (libusb0_get_device_list k known env).ret = (libusb0_get_device_list k known env1).ret ∧
    (libusb0_get_device_list k known env).list = (libusb0_get_device_list k known env1).list ∧
    ∀ l, (libusb0_get_device_list k known env).list = some l →
      l.map (libusb0_get_device_list k known env).final.devno =
        l.map (libusb0_get_device_list k known env1).final.devno := by
  by_cases hf : ∃ j, 1 ≤ j ∧ j < k.LIBUSB_MAX_NUMBER_OF_DEVICES ∧ fails_at k known env j
  · have hf1 : ∃ j, 1 ≤ j ∧ j < k.LIBUSB_MAX_NUMBER_OF_DEVICES ∧ fails_at k known env1 j := by
      obtain ⟨j, h1, h2, h3⟩ := hf
      exact ⟨j, h1, h2, (hfail j h1 h2).mp h3⟩
    obtain ⟨j, p, -, -, -, e⟩ := scan_of_exists_fail k known env hf
    obtain ⟨j1, p1, -, -, -, e1⟩ := scan_of_exists_fail k known env1 hf1
    rw [e, e1]
    refine ⟨rfl, rfl, ?_⟩
    intro l hl
    exact Option.noConfusion hl
  · have hno : ∀ j, 1 ≤ j → j < k.LIBUSB_MAX_NUMBER_OF_DEVICES → ¬ fails_at k known env j :=
      fun j h1 h2 h3 => hf ⟨j, h1, h2, h3⟩
    have hno1 : ∀ j, 1 ≤ j → j < k.LIBUSB_MAX_NUMBER_OF_DEVICES → ¬ fails_at k known env1 j :=
      fun j h1 h2 h3 => hno j h1 h2 ((hfail j h1 h2).mpr h3)
    rw [scan_eq_of_no_fail k known env hno, scan_eq_of_no_fail k known env1 hno1]
    have hl : (state_after k known env (k.LIBUSB_MAX_NUMBER_OF_DEVICES - 1)).devlist =
        (state_after k known env1 (k.LIBUSB_MAX_NUMBER_OF_DEVICES - 1)).devlist := by
      rw [state_after_devlist, state_after_devlist]
      apply List.filterMap_congr
      intro j hj
      rw [List.mem_range'_1] at hj
      exact hent j hj.1 (by omega)
    refine ⟨by simp only [hl], by simp only [hl], ?_⟩
    intro l hl1
    simp only [Option.some.injEq] at hl1
    subst hl1
    have e1 := state_after_slots k known env (k.LIBUSB_MAX_NUMBER_OF_DEVICES - 1)
    have e2 := state_after_slots k known env1 (k.LIBUSB_MAX_NUMBER_OF_DEVICES - 1)
    rw [← hl] at e2
    rw [e1, e2]
    apply List.filterMap_congr
    intro j hj
    rw [List.mem_range'_1] at hj
    rw [hent j hj.1 (by omega)]

/-- Environments that report the same outcomes for a slot make its iteration go the same
way. -/
theorem slot_outcome_congr (k : Consts) (known : List libusby_device) (a b : SlotEnv) (i : Nat)
    (h : same_outcomes k a b) : slot_outcome k known a i = slot_outcome k known b i := by
  obtain ⟨h1, h2, h3, h4, h5⟩ := h
  simp only [slot_outcome, h1, h2, h3, h4, h5]

/-- A sequence of slot indices picked from `1..j` in order is strictly increasing. -/
theorem slots_pairwise (c : Nat → Bool) (j : Nat) :
    ((List.range' 1 j).filterMap
      (fun i => if c i = true then some (i : Int) else none)).Pairwise (fun a b => a < b) := by
  refine List.Pairwise.filterMap _ ?_ (List.pairwise_lt_range' 1 j)
  intro a a1 hlt b hb b1 hb1
  split_ifs at hb hb1
  · simp only [Option.mem_def, Option.some.injEq] at hb hb1
    omega
  · exact absurd hb1 (Option.not_mem_none _)
  · exact absurd hb (Option.not_mem_none _)
  · exact absurd hb (Option.not_mem_none _)

/-- The slots a scan opens are `1..m` in this order for some `m` below the slot count, and
all of `1..LIBUSB_MAX_NUMBER_OF_DEVICES - 1` when the scan returns a list. -/
theorem scan_probes (k : Consts) (known : List libusby_device) (env : Nat → SlotEnv) :
    ∃ m, m ≤ k.LIBUSB_MAX_NUMBER_OF_DEVICES - 1 ∧
      probes (libusb0_get_device_list k known env).final.log = List.range' 1 m ∧
      ((libusb0_get_device_list k known env).list ≠ none →
        m = k.LIBUSB_MAX_NUMBER_OF_DEVICES - 1) := by
  by_cases hf : ∃ j, 1 ≤ j ∧ j < k.LIBUSB_MAX_NUMBER_OF_DEVICES ∧ fails_at k known env j
  · obtain ⟨j, p, h1, h2, -, e⟩ := scan_of_exists_fail k known env hf
    refine ⟨j, by omega, ?_, ?_⟩
    · rw [e]
      have hj : j = (j - 1) + 1 := by omega
      simp only [scan_error, Outcome.after]
      split_ifs
      · simp only [libusby_free_device_list, probes_append, probes_state_after,
          probes_outcome_log]
        conv_rhs => rw [hj, List.range'_1_concat]
        simp [probes, Nat.add_comm 1 (j - 1), ← hj]
      · simp only [probes_append, probes_state_after, probes_outcome_log]
        conv_rhs => rw [hj, List.range'_1_concat]
        simp [Nat.add_comm 1 (j - 1), ← hj]
    · rw [e]
      intro hc
      exact absurd rfl hc
  · have hno : ∀ j, 1 ≤ j → j < k.LIBUSB_MAX_NUMBER_OF_DEVICES → ¬ fails_at k known env j :=
      fun j h1 h2 h3 => hf ⟨j, h1, h2, h3⟩
    refine ⟨k.LIBUSB_MAX_NUMBER_OF_DEVICES - 1, le_refl _, ?_, fun _ => rfl⟩
    rw [scan_eq_of_no_fail k known env hno]
    exact probes_state_after k known env _

/-- A scan that stores a list had no iteration ending in `goto error`. -/
theorem no_fail_of_list (k : Consts) (known : List libusby_device) (env : Nat → SlotEnv)
    (l : List DevPtr) (hl : (libusb0_get_device_list k known env).list = some l) :
    ∀ j, 1 ≤ j → j < k.LIBUSB_MAX_NUMBER_OF_DEVICES → ¬ fails_at k known env j := by
  intro j h1 h2 h3
  obtain ⟨j0, p, -, -, -, e⟩ := scan_of_exists_fail k known env ⟨j, h1, h2, h3⟩
  rw [e] at hl
  exact Option.noConfusion hl

/-! ## Scan range and order -/

/-- C10 (as amended): a scan that returns a list opens each slot index of
`1..LIBUSB_MAX_NUMBER_OF_DEVICES - 1` exactly once, in strictly increasing order, and opens
neither index 0 nor index `LIBUSB_MAX_NUMBER_OF_DEVICES`; the slot indices stored in the
entries of the returned list are strictly increasing; and two scans of the same known-device
set in which, at every slot, the open, the allocation, the descriptor fetch, the
sanitization and the append succeed or fail alike return the same value and the same list,
with the same sequence of slot indices. -/
theorem scan_range_and_order (k : Consts) (known : List libusby_device) (env : Nat → SlotEnv) :
    (∀ l, (libusb0_get_device_list k known env).list = some l →
      probes (libusb0_get_device_list k known env).final.log =
        List.range' 1 (k.LIBUSB_MAX_NUMBER_OF_DEVICES - 1) ∧
      (∀ i, (probes (libusb0_get_device_list k known env).final.log).count i =
        if 1 ≤ i ∧ i < k.LIBUSB_MAX_NUMBER_OF_DEVICES then 1 else 0) ∧
      (probes (libusb0_get_device_list k known env).final.log).Pairwise (fun a b => a < b) ∧
      (l.map (libusb0_get_device_list k known env).final.devno).Pairwise (fun a b => a < b)) ∧
    (∀ env1 : Nat → SlotEnv,
      (∀ j, 1 ≤ j → j < k.LIBUSB_MAX_NUMBER_OF_DEVICES → same_outcomes k (env j) (env1 j)) →
      (libusb0_get_device_list k known env).ret = (libusb0_get_device_list k known env1).ret ∧
      (libusb0_get_device_list k known env).list = (libusb0_get_device_list k known env1).list ∧
      ∀ l, (libusb0_get_device_list k known env).list = some l →
        l.map (libusb0_get_device_list k known env).final.devno =
          l.map (libusb0_get_device_list k known env1).final.devno) := by
  constructor
  · intro l hl
    obtain ⟨m, -, hm, hm1⟩ := scan_probes k known env
    have hm2 : m = k.LIBUSB_MAX_NUMBER_OF_DEVICES - 1 := hm1 (by rw [hl]; exact fun h => Option.noConfusion h)
    subst hm2
    refine ⟨hm, ?_, ?_, ?_⟩
    · intro i
      rw [hm, List.count_eq_of_nodup (List.nodup_range' 1 _)]
      by_cases h : 1 ≤ i ∧ i < k.LIBUSB_MAX_NUMBER_OF_DEVICES
      · rw [if_pos h, if_pos (List.mem_range'_1.mpr ⟨h.1, by omega⟩)]
      · have hn : i ∉ List.range' 1 (k.LIBUSB_MAX_NUMBER_OF_DEVICES - 1) := by
          intro hc
          rw [List.mem_range'_1] at hc
          exact h ⟨hc.1, by omega⟩
        rw [if_neg h, if_neg hn]
    · rw [hm]
      exact List.pairwise_lt_range' 1 _
    · have hno := no_fail_of_list k known env l hl
      rw [scan_eq_of_no_fail k known env hno] at hl ⊢
      simp only [Option.some.injEq] at hl
      subst hl
      rw [state_after_slots]
      exact slots_pairwise (fun i => ((slot_outcome k known (env i) i).entry i).isSome) _
  · intro env1 hsame
    apply scan_congr
    · intro j h1 h2
      rw [slot_outcome_congr k known (env j) (env1 j) j (hsame j h1 h2)]
    · intro j h1 h2
      unfold fails_at
      rw [slot_outcome_congr k known (env j) (env1 j) j (hsame j h1 h2)]

set_option maxRecDepth 100000 in
/-- Instance of C10: with 256 as the slot count and slots 1 and 3 present (1 already known),
the scan returns the entries of slots 1 and 3 and has opened 1, 2, ..., 255. -/
theorem scan_range_and_order_witness :
    (libusb0_get_device_list sampleConsts sampleKnown (sampleEnv [1, 3])).list =
      some [DevPtr.known 0, DevPtr.fresh 3] ∧
    probes (libusb0_get_device_list sampleConsts sampleKnown (sampleEnv [1, 3])).final.log =
      List.range' 1 255 ∧
    ([DevPtr.known 0, DevPtr.fresh 3].map
      (libusb0_get_device_list sampleConsts sampleKnown (sampleEnv [1, 3])).final.devno).Pairwise
        (fun a b => a < b) :=
  have hl : (libusb0_get_device_list sampleConsts sampleKnown (sampleEnv [1, 3])).list =
      some [DevPtr.known 0, DevPtr.fresh 3] := by decide
  ⟨hl,
   ((scan_range_and_order sampleConsts sampleKnown (sampleEnv [1, 3])).1 _ hl).1,
   ((scan_range_and_order sampleConsts sampleKnown (sampleEnv [1, 3])).1 _ hl).2.2.2⟩

set_option maxRecDepth 100000 in
/-- C10 as stated fails: with `LIBUSB_MAX_NUMBER_OF_DEVICES = 256` and slot 256 present, a
scan that returns a list never opens slot index 256; and two scans with the same present
slot (slot 1) and the same (empty) known-device set return lists with different slot
sequences when the allocation of the new Device fails in one of them. -/
theorem scan_range_counterexample :
    (sampleConsts.LIBUSB_MAX_NUMBER_OF_DEVICES = 256 ∧
      (sampleEnv [256] 256).hFile ≠ INVALID_HANDLE_VALUE ∧
      (libusb0_get_device_list sampleConsts [] (sampleEnv [256])).list = some [] ∧
      (probes (libusb0_get_device_list sampleConsts [] (sampleEnv [256])).final.log).count 256
        = 0) ∧
    ((∀ i, (sampleEnv [1] i).hFile = (sampleEnvAllocFails i).hFile) ∧
      (libusb0_get_device_list sampleConsts [] (sampleEnv [1])).list = some [DevPtr.fresh 1] ∧
      [DevPtr.fresh 1].map (libusb0_get_device_list sampleConsts [] (sampleEnv [1])).final.devno
        = [1] ∧
      (libusb0_get_device_list sampleConsts [] sampleEnvAllocFails).list = some []) := by
  refine ⟨⟨rfl, by decide, by decide, by decide⟩, ⟨?_, by decide, by decide, by decide⟩⟩
  intro i
  by_cases h : i = 1
  · subst h
    rfl
  · simp [sampleEnv, sampleEnvAllocFails, h]

/-! ## The scan as a whole -/

/-- The memory at the normal exit or at `goto error`: either no iteration ends in
`goto error` and the scan returns from the memory after the last slot, or the `error:` exit
runs on the memory after the first iteration `m` that ends so. -/
theorem scan_cases (k : Consts) (known : List libusby_device) (env : Nat → SlotEnv) :
    ((∀ j, 1 ≤ j → j < k.LIBUSB_MAX_NUMBER_OF_DEVICES → ¬ fails_at k known env j) ∧
      libusb0_get_device_list k known env =
        { ret := ((state_after k known env
            (k.LIBUSB_MAX_NUMBER_OF_DEVICES - 1)).devlist.length : Int)
          list := some (state_after k known env (k.LIBUSB_MAX_NUMBER_OF_DEVICES - 1)).devlist
          final := state_after k known env (k.LIBUSB_MAX_NUMBER_OF_DEVICES - 1) }) ∨
    (∃ m p, 1 ≤ m ∧ m < k.LIBUSB_MAX_NUMBER_OF_DEVICES ∧
      slot_outcome k known (env m) m = Outcome.known_fail p ∧
      libusb0_get_device_list k known env = scan_error k (state_after k known env m)) := by
  by_cases hf : ∃ j, 1 ≤ j ∧ j < k.LIBUSB_MAX_NUMBER_OF_DEVICES ∧ fails_at k known env j
  · right
    obtain ⟨j, p, h1, h2, h3, e⟩ := scan_of_exists_fail k known env hf
    refine ⟨j, p, h1, h2, h3, ?_⟩
    obtain ⟨j, rfl⟩ : ∃ j0, j = j0 + 1 := ⟨j - 1, by omega⟩
    rw [e]
    simp only [Nat.add_sub_cancel, state_after, h3]
  · left
    have hno : ∀ j, 1 ≤ j → j < k.LIBUSB_MAX_NUMBER_OF_DEVICES → ¬ fails_at k known env j :=
      fun j h1 h2 h3 => hf ⟨j, h1, h2, h3⟩
    exact ⟨hno, scan_eq_of_no_fail k known env hno⟩

/-- The `error:` exit adds at most the bulk release to the log and keeps the list variable. -/
theorem scan_error_final (k : Consts) (s : ScanState) :
    (scan_error k s).final.log =
      s.log ++ (if s.devlist ≠ [] then [Event.libusby_free_device_list s.devlist 1] else []) ∧
    (scan_error k s).final.devlist = s.devlist := by
  unfold scan_error
  split_ifs <;> simp [libusby_free_device_list]

/-- The calls of the iteration for slot `i` are a block of the log after slots `1..j`. -/
theorem state_after_log_block (k : Consts) (known : List libusby_device) (env : Nat → SlotEnv)
    (j i : Nat) (h1 : 1 ≤ i) (h2 : i ≤ j) :
    (slot_outcome k known (env i) i).log k (env i) i <:+: (state_after k known env j).log := by
  induction j with
  | zero => omega
  | succ j ih =>
    rcases Nat.lt_or_eq_of_le h2 with hlt | heq
    · exact List.IsInfix.trans (ih (by omega))
        (List.IsPrefix.isInfix (List.prefix_append _ _))
    · subst heq
      exact List.IsSuffix.isInfix (List.suffix_append _ _)

/-- The calls of the iteration for every slot the scan opened are a block of its log. -/
theorem scan_log_block (k : Consts) (known : List libusby_device) (env : Nat → SlotEnv) (i : Nat)
    (hi : i ∈ probes (libusb0_get_device_list k known env).final.log) :
    1 ≤ i ∧ i < k.LIBUSB_MAX_NUMBER_OF_DEVICES ∧
    (slot_outcome k known (env i) i).log k (env i) i <:+:
      (libusb0_get_device_list k known env).final.log := by
  rcases scan_cases k known env with ⟨-, e⟩ | ⟨m, p, hm1, hm2, -, e⟩
  · rw [e] at hi ⊢
    simp only [probes_state_after, List.mem_range'_1] at hi
    exact ⟨hi.1, by omega, state_after_log_block k known env _ i hi.1 (by omega)⟩
  · rw [e] at hi ⊢
    rw [(scan_error_final k _).1] at hi ⊢
    have hp : probes (if (state_after k known env m).devlist ≠ [] then
        [Event.libusby_free_device_list (state_after k known env m).devlist 1] else []) = [] := by
      split_ifs <;> rfl
    simp only [probes_append, probes_state_after, hp, List.append_nil, List.mem_range'_1] at hi
    exact ⟨hi.1, by omega, List.IsInfix.trans
      (state_after_log_block k known env m i hi.1 (by omega))
      (List.IsPrefix.isInfix (List.prefix_append _ _))⟩

/-- The object behind a pointer of the context's array at the start of the scan is a
member of the known-device set. -/
theorem initial_heap_known (known : List libusby_device) (b : Nat) (hb : b < known.length) :
    initial_heap known (DevPtr.known b) ∈ known ∧
    known[b]? = some (initial_heap known (DevPtr.known b)) := by
  simp only [initial_heap, List.getD_eq_getElem?_getD, List.getElem?_eq_getElem hb,
    Option.getD_some, List.getElem_mem, and_self]

/-- A slot index stored in no known Device is found by no search. -/
theorem lookup_none_of (known : List libusby_device) (i : Nat)
    (h : ∀ d ∈ known, d.devpriv.devno ≠ (i : Int)) : lookup known i = none := by
  unfold lookup
  rw [find_known_none]
  intro p hp
  obtain ⟨b, hb, rfl⟩ := (mem_ctx_devices known p).mp hp
  exact h _ (initial_heap_known known b hb).1

/-- A slot index stored in the known Device at position `b` is found by the search, at a
position holding that slot index. -/
theorem lookup_some_of (known : List libusby_device) (i b : Nat) (d : libusby_device)
    (hb : known[b]? = some d) (hd : d.devpriv.devno = (i : Int)) :
    ∃ c, c < known.length ∧ lookup known i = some (DevPtr.known c) ∧
      (initial_heap known (DevPtr.known c)).devpriv.devno = (i : Int) := by
  cases hl : lookup known i with
  | none =>
    exfalso
    unfold lookup at hl
    rw [find_known_none] at hl
    have hlen : b < known.length := by
      by_contra hc
      rw [List.getElem?_eq_none (by omega)] at hb
      exact Option.noConfusion hb
    have := hl (DevPtr.known b) ((mem_ctx_devices known _).mpr ⟨b, hlen, rfl⟩)
    rw [(initial_heap_known known b hlen).2] at hb
    injection hb with hb
    rw [hb] at this
    exact this hd
  | some p =>
    obtain ⟨hm, hdev⟩ := find_known_some _ _ _ _ hl
    obtain ⟨c, hc, rfl⟩ := (mem_ctx_devices known p).mp hm
    exact ⟨c, hc, rfl, hdev⟩

/-- A failed descriptor request makes `libusb0_get_device_descriptor` return a negative
value: a byte count other than the descriptor size becomes `LIBUSBY_ERROR_IO`. -/
theorem get_device_descriptor_neg (k : Consts) (hk : k.ErrorsNegative) (env : SyncEnv)
    (hFile : HANDLE)
    (h : (sync_device_io_control k env hFile k.LIBUSB_IOCTL_GET_DESCRIPTOR
      { descriptor_type := 1 } (k.sizeof_libusby_device_descriptor : Int)).1 ≠
        (k.sizeof_libusby_device_descriptor : Int)) :
    (libusb0_get_device_descriptor k env hFile).1 < 0 := by
  simp only [libusb0_get_device_descriptor, if_pos h]
  exact hk.2.1

/-- A successful descriptor request of exactly the descriptor size makes
`libusb0_get_device_descriptor` return that size. -/
theorem get_device_descriptor_ok (k : Consts) (env : SyncEnv) (hFile : HANDLE)
    (h : (sync_device_io_control k env hFile k.LIBUSB_IOCTL_GET_DESCRIPTOR
      { descriptor_type := 1 } (k.sizeof_libusby_device_descriptor : Int)).1 =
        (k.sizeof_libusby_device_descriptor : Int)) :
    ¬ (libusb0_get_device_descriptor k env hFile).1 < 0 := by
  simp only [libusb0_get_device_descriptor, h, ne_eq, not_true_eq_false, if_false]
  omega

/-- A present slot with no known match, a successful allocation and a failed fetch,
sanitization or append: the candidate is discarded. -/
theorem slot_outcome_discarded (k : Consts) (known : List libusby_device) (e : SlotEnv) (i : Nat)
    (hopen : e.hFile ≠ INVALID_HANDLE_VALUE) (hnew : lookup known i = none)
    (halloc : e.alloc_ok = true)
    (hfail : (libusb0_get_device_descriptor k e.io e.hFile).1 < 0 ∨ e.sanitize < 0 ∨
      e.append < 0) :
    slot_outcome k known e i = Outcome.discarded := by
  simp [slot_outcome, hopen, hnew, halloc, hfail]

/-- A present slot with no known match and every call succeeding: a Device is created. -/
theorem slot_outcome_created (k : Consts) (known : List libusby_device) (e : SlotEnv) (i : Nat)
    (hopen : e.hFile ≠ INVALID_HANDLE_VALUE) (hnew : lookup known i = none)
    (halloc : e.alloc_ok = true)
    (hok : ¬ ((libusb0_get_device_descriptor k e.io e.hFile).1 < 0 ∨ e.sanitize < 0 ∨
      e.append < 0)) :
    slot_outcome k known e i = Outcome.created := by
  simp [slot_outcome, hopen, hnew, halloc, hok]

/-- A present slot matched by a known Device whose append succeeds: the Device is reused. -/
theorem slot_outcome_reused (k : Consts) (known : List libusby_device) (e : SlotEnv) (i : Nat)
    (p : DevPtr) (hopen : e.hFile ≠ INVALID_HANDLE_VALUE) (hl : lookup known i = some p)
    (hok : ¬ e.append < 0) :
    slot_outcome k known e i = Outcome.known_ok p := by
  simp [slot_outcome, hopen, hl, hok]

/-! ## Failed candidates -/

/-- C7: for a slot `i` of the scan range that opens, matches no known Device and gets a new
Device allocated, if the descriptor request returns anything but the descriptor size or the
sanitization fails, then the returned list has no entry with slot index `i`; once the slot
was opened, the new Device has been released and the just-opened handle closed right
after; the iteration goes on to the next slot with the list and the known Devices' private
data as they were; and the scan returns the same value and the same list as if slot `i`
had been absent. -/
theorem failed_candidate_discarded (k : Consts) (hk : k.ErrorsNegative)
    (known : List libusby_device) (env : Nat → SlotEnv) (i : Nat)
    (h1 : 1 ≤ i) (h2 : i < k.LIBUSB_MAX_NUMBER_OF_DEVICES)
    (hopen : (env i).hFile ≠ INVALID_HANDLE_VALUE)
    (hnew : ∀ d ∈ known, d.devpriv.devno ≠ (i : Int))
    (halloc : (env i).alloc_ok = true)
    (hfail : (sync_device_io_control k (env i).io (env i).hFile k.LIBUSB_IOCTL_GET_DESCRIPTOR
        { descriptor_type := 1 } (k.sizeof_libusby_device_descriptor : Int)).1 ≠
          (k.sizeof_libusby_device_descriptor : Int) ∨
      (env i).sanitize < 0) :
    (∀ l, (libusb0_get_device_list k known env).list = some l →
      ∀ p ∈ l, (libusb0_get_device_list k known env).final.devno p ≠ (i : Int)) ∧
    (i ∈ probes (libusb0_get_device_list k known env).final.log →
      Event.usbyi_alloc_device (some (DevPtr.fresh i)) ∈
        (libusb0_get_device_list k known env).final.log ∧
      [Event.libusby_unref_device (DevPtr.fresh i), Event.CloseHandle (env i).hFile] <:+:
        (libusb0_get_device_list k known env).final.log) ∧
    (∀ s, KnownUntouched known s →
      ∃ s1, scan_slot k (ctx_devices known) (env i) i s = Step.next s1 ∧
        s1.devlist = s.devlist ∧ KnownUntouched known s1) ∧
    ((libusb0_get_device_list k known env).ret =
        (libusb0_get_device_list k known
          (Function.update env i { env i with hFile := INVALID_HANDLE_VALUE })).ret ∧
      (libusb0_get_device_list k known env).list =
        (libusb0_get_device_list k known
          (Function.update env i { env i with hFile := INVALID_HANDLE_VALUE })).list) := by
  have hfail1 : (libusb0_get_device_descriptor k (env i).io (env i).hFile).1 < 0 ∨
      (env i).sanitize < 0 ∨ (env i).append < 0 := by
    rcases hfail with h | h
    · exact Or.inl (get_device_descriptor_neg k hk _ _ h)
    · exact Or.inr (Or.inl h)
  have ho : slot_outcome k known (env i) i = Outcome.discarded :=
    slot_outcome_discarded k known (env i) i hopen (lookup_none_of known i hnew) halloc hfail1
  refine ⟨?_, ?_, ?_, ?_⟩
  · intro l hl p hp hd
    have hno := no_fail_of_list k known env l hl
    rw [scan_eq_of_no_fail k known env hno] at hl hd
    simp only [Option.some.injEq] at hl
    subst hl
    have hmem : (i : Int) ∈ (state_after k known env
        (k.LIBUSB_MAX_NUMBER_OF_DEVICES - 1)).devlist.map
          (state_after k known env (k.LIBUSB_MAX_NUMBER_OF_DEVICES - 1)).devno :=
      List.mem_map.mpr ⟨p, hp, hd⟩
    rw [state_after_slots, List.mem_filterMap] at hmem
    obtain ⟨j, -, hj⟩ := hmem
    split_ifs at hj with hs
    injection hj with hj
    have hji : j = i := by omega
    subst hji
    rw [ho] at hs
    simp [Outcome.entry] at hs
  · intro hi
    obtain ⟨-, -, hinf⟩ := scan_log_block k known env i hi
    rw [ho] at hinf
    constructor
    · apply hinf.subset
      simp [Outcome.log]
    · refine List.IsInfix.trans ?_ hinf
      apply List.IsSuffix.isInfix
      simp only [Outcome.log, discard_log]
      rw [← List.append_assoc]
      exact List.suffix_append _ _
  · intro s hs
    rw [scan_slot_eq k known (env i) i s hs, ho]
    exact ⟨_, rfl, by simp [Outcome.after, Outcome.entry],
      after_knownUntouched k known (env i) i s Outcome.discarded hs⟩
  · have hc := scan_congr k known env
      (Function.update env i { env i with hFile := INVALID_HANDLE_VALUE }) ?_ ?_
    · exact ⟨hc.1, hc.2.1⟩
    · intro j _ _
      by_cases hj : j = i
      · subst hj
        rw [ho, Function.update_same]
        simp [slot_outcome, Outcome.entry]
      · rw [Function.update_noteq hj]
    · intro j _ _
      by_cases hj : j = i
      · subst hj
        unfold fails_at
        rw [ho, Function.update_same]
        simp [slot_outcome]
      · rw [fails_at, fails_at, Function.update_noteq hj]

set_option maxRecDepth 100000 in
/-- Instance of C7: slot 1 opens as handle 101 and is new, its descriptor request fails;
slot 2 is present and fine.  The list holds only the Device of slot 2, the Device allocated
for slot 1 was released and handle 101 closed, and the result is that of a scan without
slot 1. -/
theorem failed_candidate_discarded_witness :
    (libusb0_get_device_list sampleConsts [] sampleEnvFetchFails).list =
      some [DevPtr.fresh 2] ∧
    (∀ l, (libusb0_get_device_list sampleConsts [] sampleEnvFetchFails).list = some l →
      ∀ p ∈ l, (libusb0_get_device_list sampleConsts [] sampleEnvFetchFails).final.devno p ≠
        ((1 : Nat) : Int)) ∧
    [Event.libusby_unref_device (DevPtr.fresh 1), Event.CloseHandle 101] <:+:
      (libusb0_get_device_list sampleConsts [] sampleEnvFetchFails).final.log ∧
    (libusb0_get_device_list sampleConsts [] sampleEnvFetchFails).ret =
      (libusb0_get_device_list sampleConsts []
        (Function.update sampleEnvFetchFails 1
          { sampleEnvFetchFails 1 with hFile := INVALID_HANDLE_VALUE })).ret :=
  have h := failed_candidate_discarded sampleConsts (by decide) [] sampleEnvFetchFails 1
    (by decide) (by decide) (by decide) (fun d hd => absurd hd (List.not_mem_nil d)) rfl
    (Or.inl (by decide))
  ⟨by decide, h.1, (h.2.1 (by decide)).2, h.2.2.2.1⟩

/-- After the iterations for slots `1..j`, a known Device holds one more reference for each
time it is in the list. -/
theorem state_after_ref (k : Consts) (known : List libusby_device) (env : Nat → SlotEnv)
    (j b : Nat) :
    ((state_after k known env j).heap (DevPtr.known b)).ref_count =
      (initial_heap known (DevPtr.known b)).ref_count +
        ((state_after k known env j).devlist.count (DevPtr.known b) : Int) := by
  induction j with
  | zero => simp [state_after, initial_state]
  | succ j ih =>
    simp only [state_after, Outcome.after]
    cases ho : slot_outcome k known (env (j + 1)) (j + 1) with
    | known_ok q =>
      by_cases hq : DevPtr.known b = q
      · subst hq
        simp only [Outcome.heap, Outcome.entry, Function.update_same, Option.toList_some,
          List.count_append, List.count_singleton_self, ih]
        push_cast
        ring
      · have hq1 : ¬ (q = DevPtr.known b) := fun h => hq h.symm
        simp only [Outcome.heap, Outcome.entry, Function.update_noteq hq, Option.toList_some,
          List.count_append, ih]
        simp [List.count_singleton, hq1]
    | created =>
      have hq : DevPtr.known b ≠ DevPtr.fresh (j + 1) := by simp
      simp only [Outcome.heap, Outcome.entry, Function.update_noteq hq, Option.toList_some,
        List.count_append, ih]
      simp [List.count_singleton]
    | discarded =>
      have hq : DevPtr.known b ≠ DevPtr.fresh (j + 1) := by simp
      simp only [Outcome.heap, Outcome.entry, Function.update_noteq hq, Option.toList_none,
        List.append_nil, ih]
    | absent => simp only [Outcome.heap, Outcome.entry, Option.toList_none, List.append_nil, ih]
    | known_fail q =>
      simp only [Outcome.heap, Outcome.entry, Option.toList_none, List.append_nil, ih]
    | alloc_fail =>
      simp only [Outcome.heap, Outcome.entry, Option.toList_none, List.append_nil, ih]

/-- A control-channel call allocates no Device. -/
theorem sync_log_no_alloc (k : Consts) (env : SyncEnv) (hFile : HANDLE) (dwControlCode : DWORD)
    (req : libusb0_win32_request) (out_len : Int) (x : Option DevPtr) :
    Event.usbyi_alloc_device x ∉
      (sync_device_io_control k env hFile dwControlCode req out_len).2 := by
  by_cases h : env.hEvent = NULL
  · simp [sync_device_io_control, h]
  · simp only [sync_device_io_control, sync_request_log, if_neg h]
    split_ifs <;> simp

/-- The descriptor fetch allocates no Device. -/
theorem get_device_descriptor_no_alloc (k : Consts) (env : SyncEnv) (hFile : HANDLE)
    (x : Option DevPtr) :
    Event.usbyi_alloc_device x ∉ (libusb0_get_device_descriptor k env hFile).2 := by
  simp only [libusb0_get_device_descriptor]
  split_ifs <;> exact sync_log_no_alloc _ _ _ _ _ _ _

/-- An iteration allocates a Device only for its own slot, and only on the new-device
branch. -/
theorem alloc_mem_outcome_log (k : Consts) (e : SlotEnv) (j i : Nat) (o : Outcome)
    (h : Event.usbyi_alloc_device (some (DevPtr.fresh i)) ∈ o.log k e j) :
    i = j ∧ (o = Outcome.discarded ∨ o = Outcome.created) := by
  cases o with
  | discarded =>
    simp only [Outcome.log, discard_log, List.mem_append, List.mem_cons, List.mem_singleton,
      reduceCtorEq, false_or, Event.usbyi_alloc_device.injEq, Option.some.injEq,
      DevPtr.fresh.injEq, List.not_mem_nil, or_false] at h
    rcases h with (h | h) | h
    · exact ⟨h, Or.inl rfl⟩
    · exact absurd h (get_device_descriptor_no_alloc _ _ _ _)
    · split_ifs at h <;> simp at h
  | created =>
    simp only [Outcome.log, List.mem_append, List.mem_cons, List.mem_singleton,
      reduceCtorEq, false_or, Event.usbyi_alloc_device.injEq, Option.some.injEq,
      DevPtr.fresh.injEq, List.not_mem_nil, or_false] at h
    rcases h with h | h
    · exact ⟨h, Or.inr rfl⟩
    · exact absurd h (get_device_descriptor_no_alloc _ _ _ _)
  | absent => simp [Outcome.log] at h
  | known_fail p => simp [Outcome.log] at h
  | known_ok p => simp [Outcome.log] at h
  | alloc_fail => simp [Outcome.log] at h

/-- A Device allocated for slot `i` in the log means the iteration for slot `i` took the
new-device branch. -/
theorem alloc_mem_state_after (k : Consts) (known : List libusby_device) (env : Nat → SlotEnv)
    (j i : Nat)
    (h : Event.usbyi_alloc_device (some (DevPtr.fresh i)) ∈ (state_after k known env j).log) :
    slot_outcome k known (env i) i = Outcome.discarded ∨
      slot_outcome k known (env i) i = Outcome.created := by
  induction j with
  | zero => simp [state_after, initial_state] at h
  | succ j ih =>
    simp only [state_after, Outcome.after, List.mem_append] at h
    rcases h with h | h
    · exact ih h
    · obtain ⟨rfl, ho⟩ := alloc_mem_outcome_log k _ _ _ _ h
      exact ho

/-! ## Identity stability -/

/-- C5: let the known Devices store pairwise different slot indices, and let no append,
allocation, descriptor fetch or sanitization fail at any present slot of the scan range.
Then the scan returns a list, and for every slot `i` of the range that opens, exactly one
entry of the list stores slot index `i`; if the known-device set holds a Device with slot
index `i`, that entry is this very object, no Device is allocated for slot `i`, and the
object's reference count has gone up by exactly one (its private data being untouched). -/
theorem scan_identity_stability (k : Consts) (known : List libusby_device)
    (env : Nat → SlotEnv)
    (hdist : ∀ (a b : Nat) (da db : libusby_device), known[a]? = some da →
      known[b]? = some db → da.devpriv.devno = db.devpriv.devno → a = b)
    (hok : ∀ j, 1 ≤ j → j < k.LIBUSB_MAX_NUMBER_OF_DEVICES →
      (env j).hFile ≠ INVALID_HANDLE_VALUE →
      ¬ (env j).append < 0 ∧ (env j).alloc_ok = true ∧
      ¬ (libusb0_get_device_descriptor k (env j).io (env j).hFile).1 < 0 ∧
      ¬ (env j).sanitize < 0)
    (i : Nat) (h1 : 1 ≤ i) (h2 : i < k.LIBUSB_MAX_NUMBER_OF_DEVICES)
    (hopen : (env i).hFile ≠ INVALID_HANDLE_VALUE) :
    ∃ l, (libusb0_get_device_list k known env).list = some l ∧
      (libusb0_get_device_list k known env).ret = (l.length : Int) ∧
      (l.map (libusb0_get_device_list k known env).final.devno).count (i : Int) = 1 ∧
      ∀ b d, known[b]? = some d → d.devpriv.devno = (i : Int) →
        DevPtr.known b ∈ l ∧
        (libusb0_get_device_list k known env).final.devno (DevPtr.known b) = (i : Int) ∧
        (∀ p ∈ l, (libusb0_get_device_list k known env).final.devno p = (i : Int) →
          p = DevPtr.known b) ∧
        DevPtr.fresh i ∉ l ∧
        Event.usbyi_alloc_device (some (DevPtr.fresh i)) ∉
          (libusb0_get_device_list k known env).final.log ∧
        ((libusb0_get_device_list k known env).final.heap (DevPtr.known b)).ref_count =
          d.ref_count + 1 ∧
        ((libusb0_get_device_list k known env).final.heap (DevPtr.known b)).devpriv =
          d.devpriv := by
  have hno : ∀ j, 1 ≤ j → j < k.LIBUSB_MAX_NUMBER_OF_DEVICES → ¬ fails_at k known env j := by
    rintro j hj1 hj2 ⟨p, hp⟩
    obtain ⟨-, ho, ha⟩ := (slot_outcome_known_fail k known (env j) j p).mp hp
    exact (hok j hj1 hj2 ho).1 ha
  rw [scan_eq_of_no_fail k known env hno]
  have hrange : i ∈ List.range' 1 (k.LIBUSB_MAX_NUMBER_OF_DEVICES - 1) :=
    List.mem_range'_1.mpr ⟨h1, by omega⟩
  obtain ⟨hA, hB, hC, hD⟩ := hok i h1 h2 hopen
  have hnodup : ((state_after k known env (k.LIBUSB_MAX_NUMBER_OF_DEVICES - 1)).devlist.map
      (state_after k known env (k.LIBUSB_MAX_NUMBER_OF_DEVICES - 1)).devno).Nodup := by
    rw [state_after_slots]
    exact (slots_pairwise (fun i => ((slot_outcome k known (env i) i).entry i).isSome) _).imp
      (fun h => ne_of_lt h)
  have hsome : ((slot_outcome k known (env i) i).entry i).isSome = true := by
    cases hl : lookup known i with
    | none =>
      rw [slot_outcome_created k known (env i) i hopen hl hB
        (fun h => h.elim hC (fun h => h.elim hD hA))]
      rfl
    | some p =>
      rw [slot_outcome_reused k known (env i) i p hopen hl hA]
      rfl
  refine ⟨_, rfl, rfl, ?_, ?_⟩
  · apply List.count_eq_one_of_mem hnodup
    rw [state_after_slots, List.mem_filterMap]
    exact ⟨i, hrange, by rw [if_pos hsome]⟩
  · intro b d hb hd
    obtain ⟨c, hc, hl, hdev⟩ := lookup_some_of known i b d hb hd
    have hcb : c = b :=
      hdist c b _ d (initial_heap_known known c hc).2 hb (by rw [hdev, hd])
    subst hcb
    have hd0 : initial_heap known (DevPtr.known c) = d := by
      have := (initial_heap_known known c hc).2
      rw [hb] at this
      injection this with this
      exact this.symm
    have ho : slot_outcome k known (env i) i = Outcome.known_ok (DevPtr.known c) :=
      slot_outcome_reused k known (env i) i _ hopen hl hA
    have he : (slot_outcome k known (env i) i).entry i = some (DevPtr.known c) := by
      rw [ho]
      rfl
    have hmem : DevPtr.known c ∈
        (state_after k known env (k.LIBUSB_MAX_NUMBER_OF_DEVICES - 1)).devlist := by
      rw [state_after_devlist, List.mem_filterMap]
      exact ⟨i, hrange, he⟩
    refine ⟨hmem, ?_, ?_, ?_, ?_, ?_, ?_⟩
    · exact (state_after_entry k known env _ i _ h1 (by omega) he).1
    · intro p hp hpd
      obtain ⟨j, hj1, hj2, hje⟩ := mem_state_after_devlist k known env _ p hp
      have := (state_after_entry k known env _ j p hj1 hj2 hje).1
      have hji : j = i := by
        rw [this] at hpd
        omega
      subst hji
      rw [he] at hje
      injection hje with hje
      exact hje.symm
    · intro hf
      obtain ⟨j, hj1, hj2, hje⟩ := mem_state_after_devlist k known env _ _ hf
      rcases entry_cases k known (env j) j _ hje with ⟨hp, hcr⟩ | ⟨b, -, hp, -⟩
      · injection hp with hp
        subst hp
        rw [ho] at hcr
        exact Outcome.noConfusion hcr
      · exact DevPtr.noConfusion hp
    · intro hf
      rcases alloc_mem_state_after k known env _ i hf with h | h
      · rw [ho] at h
        exact Outcome.noConfusion h
      · rw [ho] at h
        exact Outcome.noConfusion h
    · rw [state_after_ref, hd0, List.count_eq_one_of_mem (List.Nodup.of_map _ hnodup) hmem]
      rfl
    · rw [state_after_knownUntouched k known env _ c, hd0]

set_option maxRecDepth 100000 in
/-- Instance of C5: the context knows the device of slot 1 (reference count 1, handle 50)
and slots 1 and 3 are present.  Slot 1 is entered once, by the known object, whose
reference count becomes 2. -/
theorem scan_identity_stability_witness :
    ∃ l, (libusb0_get_device_list sampleConsts sampleKnown (sampleEnv [1, 3])).list = some l ∧
      (l.map (libusb0_get_device_list sampleConsts sampleKnown
        (sampleEnv [1, 3])).final.devno).count ((1 : Nat) : Int) = 1 ∧
      DevPtr.known 0 ∈ l ∧
      ((libusb0_get_device_list sampleConsts sampleKnown
        (sampleEnv [1, 3])).final.heap (DevPtr.known 0)).ref_count = 2 := by
  obtain ⟨l, hl, -, hc, hk⟩ := scan_identity_stability sampleConsts sampleKnown
    (sampleEnv [1, 3])
    (by
      intro a b da db ha hb _
      have ha1 : a = 0 := by
        by_contra hne
        rw [List.getElem?_eq_none (by simp [sampleKnown]; omega)] at ha
        exact Option.noConfusion ha
      have hb1 : b = 0 := by
        by_contra hne
        rw [List.getElem?_eq_none (by simp [sampleKnown]; omega)] at hb
        exact Option.noConfusion hb
      rw [ha1, hb1])
    (by
      intro j _ _ _
      have hf : ¬ (libusb0_get_device_descriptor sampleConsts sampleSyncOk
          (100 + (j : Int))).1 < 0 := by
        apply get_device_descriptor_ok
        rfl
      by_cases hj : j ∈ [1, 3]
      · rw [show sampleEnv [1, 3] j = presentSlot (100 + (j : Int)) from if_pos hj]
        exact ⟨by simp [presentSlot], rfl, hf, by simp [presentSlot]⟩
      · rw [show sampleEnv [1, 3] j = absentSlot from if_neg hj]
        refine ⟨by simp [absentSlot], rfl, ?_, by simp [absentSlot]⟩
        apply get_device_descriptor_ok
        rfl)
    1 (by decide) (by decide) (by decide)
  obtain ⟨h3, -, -, -, -, h4, -⟩ := hk 0 _ rfl rfl
  exact ⟨l, hl, hc, h3, h4⟩

/-! ## Append failures -/

/-- Appended objects of a concatenated log. -/
theorem appended_append (a b : List Event) : appended (a ++ b) = appended a ++ appended b := by
  induction a with
  | nil => rfl
  | cons ev evs ih =>
    rw [List.cons_append]
    cases ev <;> simp only [appended, ih]
    split_ifs <;> simp

/-- A control-channel call appends nothing and releases no list. -/
theorem sync_log_no_list_calls (k : Consts) (env : SyncEnv) (hFile : HANDLE)
    (dwControlCode : DWORD) (req : libusb0_win32_request) (out_len : Int) :
    appended (sync_device_io_control k env hFile dwControlCode req out_len).2 = [] ∧
    (sync_device_io_control k env hFile dwControlCode req out_len).2.filter
      Event.isFreeList = [] := by
  by_cases h : env.hEvent = NULL
  · simp [sync_device_io_control, h, appended, Event.isFreeList]
  · simp only [sync_device_io_control, sync_request_log, if_neg h]
    split_ifs <;> simp [appended, Event.isFreeList, List.filter]

/-- The descriptor fetch appends nothing and releases no list. -/
theorem get_device_descriptor_no_list_calls (k : Consts) (env : SyncEnv) (hFile : HANDLE) :
    appended (libusb0_get_device_descriptor k env hFile).2 = [] ∧
    (libusb0_get_device_descriptor k env hFile).2.filter Event.isFreeList = [] := by
  simp only [libusb0_get_device_descriptor]
  split_ifs <;> exact sync_log_no_list_calls _ _ _ _ _ _

/-- The successful appends an iteration logs are the entry it adds, and it never calls the
bulk release. -/
theorem outcome_log_list_calls (k : Consts) (known : List libusby_device) (e : SlotEnv)
    (i : Nat) :
    appended ((slot_outcome k known e i).log k e i) =
      ((slot_outcome k known e i).entry i).toList ∧
    ((slot_outcome k known e i).log k e i).filter Event.isFreeList = [] := by
  have hf := get_device_descriptor_no_list_calls k e.io e.hFile
  unfold slot_outcome
  by_cases h1 : e.hFile = INVALID_HANDLE_VALUE
  · simp [h1, Outcome.log, Outcome.entry, appended, Event.isFreeList]
  · simp only [h1, if_false]
    cases hl : lookup known i with
    | some p =>
      by_cases h2 : e.append < 0
      · simp [h2, Outcome.log, Outcome.entry, appended, Event.isFreeList]
      · simp [h2, Outcome.log, Outcome.entry, appended, Event.isFreeList]
    | none =>
      by_cases h3 : e.alloc_ok = false
      · simp [h3, Outcome.log, Outcome.entry, appended, Event.isFreeList]
      · by_cases h4 : (libusb0_get_device_descriptor k e.io e.hFile).1 < 0
        · simp [h3, h4, Outcome.log, Outcome.entry, discard_log, appended, appended_append,
            Event.isFreeList, hf.1, hf.2]
        · by_cases h5 : e.sanitize < 0
          · simp [h3, h4, h5, Outcome.log, Outcome.entry, discard_log, appended,
              appended_append, Event.isFreeList, hf.1, hf.2]
          · by_cases h6 : e.append < 0
            · simp [h3, h4, h5, h6, Outcome.log, Outcome.entry, discard_log, appended,
                appended_append, Event.isFreeList, hf.1, hf.2]
            · simp [h3, h4, h5, h6, Outcome.log, Outcome.entry, appended, appended_append,
                Event.isFreeList, hf.1, hf.2]

/-- After the iterations for slots `1..j`, the list is exactly what was appended with
success, and the bulk release has not been called. -/
theorem state_after_list_calls (k : Consts) (known : List libusby_device) (env : Nat → SlotEnv)
    (j : Nat) :
    appended (state_after k known env j).log = (state_after k known env j).devlist ∧
    (state_after k known env j).log.filter Event.isFreeList = [] := by
  induction j with
  | zero => exact ⟨rfl, rfl⟩
  | succ j ih =>
    have ho := outcome_log_list_calls k known (env (j + 1)) (j + 1)
    simp only [state_after, Outcome.after, appended_append, List.filter_append, ih.1, ih.2,
      ho.1, ho.2, List.append_nil, and_self]

/-- A log without bulk-release calls holds no `libusby_free_device_list` event. -/
theorem not_mem_of_filter_isFreeList (log : List Event)
    (h : log.filter Event.isFreeList = []) (L : List DevPtr) (u : Int) :
    Event.libusby_free_device_list L u ∉ log := by
  intro hm
  have : Event.libusby_free_device_list L u ∈ log.filter Event.isFreeList :=
    List.mem_filter.mpr ⟨hm, rfl⟩
  rw [h] at this
  exact List.not_mem_nil _ this

/-- C6 (as amended): if appending an already-known Device fails, the scan returns
`LIBUSBY_ERROR_NO_MEM` (a negative value) and stores no list, and when entries had been
appended it ends with one bulk release of exactly those entries (no bulk release when none
had).  If appending a newly created Device fails, that candidate alone is released and its
handle closed, and the iteration goes on with the list as it was.  A scan in which no
append of a known Device fails returns a list and its length, without any bulk release. -/
theorem append_failure_policy (k : Consts) (known : List libusby_device) (env : Nat → SlotEnv) :
    (∀ (j b : Nat) (d : libusby_device), 1 ≤ j → j < k.LIBUSB_MAX_NUMBER_OF_DEVICES →
      (env j).hFile ≠ INVALID_HANDLE_VALUE → known[b]? = some d →
      d.devpriv.devno = (j : Int) → (env j).append < 0 →
      (libusb0_get_device_list k known env).ret = k.LIBUSBY_ERROR_NO_MEM ∧
      (k.ErrorsNegative → (libusb0_get_device_list k known env).ret < 0) ∧
      (libusb0_get_device_list k known env).list = none ∧
      (appended (libusb0_get_device_list k known env).final.log ≠ [] →
        (libusb0_get_device_list k known env).final.log.getLast? =
          some (Event.libusby_free_device_list
            (appended (libusb0_get_device_list k known env).final.log) 1) ∧
        ((libusb0_get_device_list k known env).final.log.filter Event.isFreeList).length = 1) ∧
      (appended (libusb0_get_device_list k known env).final.log = [] →
        ∀ L u, Event.libusby_free_device_list L u ∉
          (libusb0_get_device_list k known env).final.log)) ∧
    (∀ (i : Nat) (s : ScanState), KnownUntouched known s →
      (env i).hFile ≠ INVALID_HANDLE_VALUE → (∀ d ∈ known, d.devpriv.devno ≠ (i : Int)) →
      (env i).alloc_ok = true →
      ¬ (libusb0_get_device_descriptor k (env i).io (env i).hFile).1 < 0 →
      ¬ (env i).sanitize < 0 → (env i).append < 0 →
      ∃ s1 evs, scan_slot k (ctx_devices known) (env i) i s = Step.next s1 ∧
        s1.devlist = s.devlist ∧
        s1.log = s.log ++ evs ++
          [Event.usbyi_append_device_list (DevPtr.fresh i) (env i).append,
            Event.libusby_unref_device (DevPtr.fresh i), Event.CloseHandle (env i).hFile]) ∧
    ((∀ (j b : Nat) (d : libusby_device), 1 ≤ j → j < k.LIBUSB_MAX_NUMBER_OF_DEVICES →
        (env j).hFile ≠ INVALID_HANDLE_VALUE → known[b]? = some d →
        d.devpriv.devno = (j : Int) → ¬ (env j).append < 0) →
      ∃ l, (libusb0_get_device_list k known env).list = some l ∧
        (libusb0_get_device_list k known env).ret = (l.length : Int) ∧
        ∀ L u, Event.libusby_free_device_list L u ∉
          (libusb0_get_device_list k known env).final.log) := by
  refine ⟨?_, ?_, ?_⟩
  · intro j b d hj1 hj2 hopen hb hd happ
    obtain ⟨c, -, hl, -⟩ := lookup_some_of known j b d hb hd
    have hfail : fails_at k known env j :=
      ⟨_, (slot_outcome_known_fail k known (env j) j _).mpr ⟨hl, hopen, happ⟩⟩
    rcases scan_cases k known env with ⟨hno, -⟩ | ⟨m, p, -, -, -, e⟩
    · exact absurd hfail (hno j hj1 hj2)
    · rw [e]
      have hs := state_after_list_calls k known env m
      have hlog := (scan_error_final k (state_after k known env m)).1
      have happd : appended (scan_error k (state_after k known env m)).final.log =
          (state_after k known env m).devlist := by
        rw [hlog, appended_append, hs.1]
        split_ifs <;> simp [appended]
      refine ⟨rfl, fun hk => hk.2.2.2.2, rfl, ?_, ?_⟩
      · intro hne
        rw [happd] at hne ⊢
        rw [hlog, if_pos hne]
        refine ⟨List.getLast?_concat _, ?_⟩
        rw [List.filter_append, hs.2]
        rfl
      · intro hnil L u
        rw [happd] at hnil
        rw [hlog, if_neg (fun h => h hnil), List.append_nil]
        exact not_mem_of_filter_isFreeList _ hs.2 L u
  · intro i s hs hopen hnew halloc hf hsan happ
    have ho : slot_outcome k known (env i) i = Outcome.discarded :=
      slot_outcome_discarded k known (env i) i hopen (lookup_none_of known i hnew) halloc
        (Or.inr (Or.inr happ))
    rw [scan_slot_eq k known (env i) i s hs, ho]
    refine ⟨_, [Event.CreateFileW i (env i).hFile,
      Event.usbyi_alloc_device (some (DevPtr.fresh i))] ++
      (libusb0_get_device_descriptor k (env i).io (env i).hFile).2 ++
      [Event.usbyi_sanitize_device_desc (DevPtr.fresh i) (env i).sanitize], rfl, ?_, ?_⟩
    · simp [Outcome.after, Outcome.entry]
    · simp [Outcome.after, Outcome.log, discard_log, hf, hsan]
  · intro hgood
    have hno : ∀ j, 1 ≤ j → j < k.LIBUSB_MAX_NUMBER_OF_DEVICES → ¬ fails_at k known env j := by
      rintro j hj1 hj2 ⟨p, hp⟩
      obtain ⟨hl, hopen, happ⟩ := (slot_outcome_known_fail k known (env j) j p).mp hp
      obtain ⟨hm, hdev⟩ := find_known_some _ _ _ _ hl
      obtain ⟨b, hb, rfl⟩ := (mem_ctx_devices known p).mp hm
      exact hgood j b _ hj1 hj2 hopen (initial_heap_known known b hb).2 hdev happ
    rw [scan_eq_of_no_fail k known env hno]
    exact ⟨_, rfl, rfl, fun L u =>
      not_mem_of_filter_isFreeList _ (state_after_list_calls k known env _).2 L u⟩

set_option maxRecDepth 100000 in
/-- Instance of C6: the context knows the devices of slots 1 and 2, both present; slot 1 is
appended, the append for slot 2 fails.  The scan returns `LIBUSBY_ERROR_NO_MEM`, stores no
list, and its last call is the bulk release of what was appended. -/
theorem append_failure_policy_witness :
    (libusb0_get_device_list sampleConsts sampleKnownTwo sampleEnvKnownAppendFails).ret = -11 ∧
    (libusb0_get_device_list sampleConsts sampleKnownTwo sampleEnvKnownAppendFails).list =
      none ∧
    (libusb0_get_device_list sampleConsts sampleKnownTwo
      sampleEnvKnownAppendFails).final.log.getLast? =
      some (Event.libusby_free_device_list
        (appended (libusb0_get_device_list sampleConsts sampleKnownTwo
          sampleEnvKnownAppendFails).final.log) 1) ∧
    appended (libusb0_get_device_list sampleConsts sampleKnownTwo
      sampleEnvKnownAppendFails).final.log = [DevPtr.known 0] :=
  have h := (append_failure_policy sampleConsts sampleKnownTwo sampleEnvKnownAppendFails).1
    2 1 { ref_count := 1, devpriv := { devno := 2, hFile := 51 } } (by decide) (by decide)
    (by decide) rfl rfl (by decide)
  ⟨h.1, h.2.2.1, (h.2.2.2.1 (by decide)).1, by decide⟩

set_option maxRecDepth 100000 in
/-- C6 as stated fails: slot 1 is present and new, the Device is allocated, fetched and
sanitized, and appending it to the result list fails.  The scan still returns a
non-negative count (0, with an empty list) and never calls the bulk release. -/
theorem append_failure_counterexample :
    Event.usbyi_append_device_list (DevPtr.fresh 1) (-11) ∈
      (libusb0_get_device_list sampleConsts [] sampleEnvAppendFails).final.log ∧
    (libusb0_get_device_list sampleConsts [] sampleEnvAppendFails).ret = 0 ∧
    (libusb0_get_device_list sampleConsts [] sampleEnvAppendFails).list = some [] ∧
    (libusb0_get_device_list sampleConsts [] sampleEnvAppendFails).final.log.filter
      Event.isFreeList = [] := by
  decide

/-! ## Handles opened by the scan -/

set_option maxRecDepth 100000 in
/-- C4 fails on the code: the context knows the device of slot 1 with cached handle 50, and
slot 1 opens as handle 101.  The scan returns the known Device, whose handle is still 50,
but handle 101 is neither closed nor stored in a Device: the log has the `CreateFileW` that
returned 101 and no `CloseHandle` of it.  The same happens when slot 1 is new and
`usbyi_alloc_device` returns `NULL`. -/
theorem known_slot_handle_not_closed :
    (libusb0_get_device_list sampleConsts sampleKnown (sampleEnv [1])).list =
      some [DevPtr.known 0] ∧
    Event.CreateFileW 1 101 ∈
      (libusb0_get_device_list sampleConsts sampleKnown (sampleEnv [1])).final.log ∧
    Event.CloseHandle 101 ∉
      (libusb0_get_device_list sampleConsts sampleKnown (sampleEnv [1])).final.log ∧
    ((libusb0_get_device_list sampleConsts sampleKnown (sampleEnv [1])).final.heap
      (DevPtr.known 0)).devpriv.hFile = 50 ∧
    ((libusb0_get_device_list sampleConsts sampleKnown (sampleEnv [1])).final.heap
      (DevPtr.known 0)).ref_count = 2 ∧
    ((libusb0_get_device_list sampleConsts [] sampleEnvAllocFails).list = some [] ∧
      Event.CreateFileW 1 101 ∈
        (libusb0_get_device_list sampleConsts [] sampleEnvAllocFails).final.log ∧
      Event.CloseHandle 101 ∉
        (libusb0_get_device_list sampleConsts [] sampleEnvAllocFails).final.log) := by
  decide

end Libusb0
